import Mathlib

set_option maxRecDepth 16000

/-!
Verification of the SSTable on-disk format code of the XEngine storage engine
(table/format.cc, table/block_based_table_builder.cc, table/index_builder.cc).

Byte strings are modelled as `List Nat` with every element a byte value
(`< 256`).  Machine integers are `Nat` with explicit `% 2 ^ 32` / `% 2 ^ 64`
where the C++ performs modular (unsigned) arithmetic.  Statuses are a closed
inductive mirroring `common::Status` codes that this code produces.
-/

/-- Status codes produced by the table-format code, mirroring `common::Status`.
`corruption` carries the message string passed to `Status::Corruption`. -/
inductive Status where
  | ok : Status
  | notFound : Status
  | corruption : String → Status
  | incomplete : Status
  | memoryLimit : Status
  deriving DecidableEq, Repr

/-! ## util/coding: fixed-width and varint codecs

These functions are declared in `util/coding.h` and used throughout
`table/format.cc`.  `EncodeFixed32`/`DecodeFixed32` are little-endian 32-bit
codecs; `PutVarint64`/`GetVarint64` are the LEB128-style varint codecs whose
decoder reads at most 10 bytes (`shift <= 63`) and accumulates
`result |= (byte & 127) << shift` in `uint64` arithmetic. -/

/-- Little-endian 4-byte encoding of the low 32 bits of `v` (`EncodeFixed32`). -/
def encodeFixed32 (v : Nat) : List Nat :=
  [v % 256, v / 256 % 256, v / 2 ^ 16 % 256, v / 2 ^ 24 % 256]

/-- Little-endian 8-byte encoding of the low 64 bits of `v` (`EncodeFixed64`). -/
def encodeFixed64 (v : Nat) : List Nat :=
  encodeFixed32 (v % 2 ^ 32) ++ encodeFixed32 (v / 2 ^ 32 % 2 ^ 32)

/-- Little-endian 32-bit decode of the first four bytes (`DecodeFixed32`).
The source always applies it to at least four available bytes. -/
def decodeFixed32 : List Nat → Nat
  | b0 :: b1 :: b2 :: b3 :: _ => b0 + b1 * 256 + b2 * 2 ^ 16 + b3 * 2 ^ 24
  | _ => 0

/-- Little-endian 64-bit decode of the first eight bytes (`DecodeFixed64`). -/
def decodeFixed64 (l : List Nat) : Nat :=
  decodeFixed32 l + decodeFixed32 (l.drop 4) * 2 ^ 32

/-- LEB128 varint encoding of `v` (`PutVarint64`): seven payload bits per
byte, continuation bit `128` on every byte except the last. -/
def encodeVarint64 (v : Nat) : List Nat :=
  if h : v < 128 then [v]
  else (v % 128 + 128) :: encodeVarint64 (v / 128)
  decreasing_by exact Nat.div_lt_self (by omega) (by omega)

/-- Decoding loop of `GetVarint64Ptr`: reads bytes while the continuation bit
is set, giving up once `shift` exceeds 63 (more than 10 bytes) or the input is
exhausted; the accumulator lives in `uint64` (`% 2 ^ 64`). -/
def getVarint64Loop : List Nat → Nat → Nat → Option (Nat × List Nat)
  | [], _, _ => none
  | b :: rest, shift, acc =>
    if shift > 63 then none
    else if 128 ≤ b then
      getVarint64Loop rest (shift + 7) ((acc + (b - 128) * 2 ^ shift) % 2 ^ 64)
    else some ((acc + b * 2 ^ shift) % 2 ^ 64, rest)

/-- `GetVarint64` on a byte string: decoded value plus remaining bytes, or
`none` on a malformed varint. -/
def getVarint64 (l : List Nat) : Option (Nat × List Nat) :=
  getVarint64Loop l 0 0

/-- Decoding loop of `GetVarint32Ptr`: as the 64-bit loop but the shift limit
is 28 and the accumulator is a `uint32`. -/
def getVarint32Loop : List Nat → Nat → Nat → Option (Nat × List Nat)
  | [], _, _ => none
  | b :: rest, shift, acc =>
    if shift > 28 then none
    else if 128 ≤ b then
      getVarint32Loop rest (shift + 7) ((acc + (b - 128) * 2 ^ shift) % 2 ^ 32)
    else some ((acc + b * 2 ^ shift) % 2 ^ 32, rest)

/-- `GetVarint32` on a byte string. -/
def getVarint32 (l : List Nat) : Option (Nat × List Nat) :=
  getVarint32Loop l 0 0

/-- Effect of `std::string::resize(n)` on a byte string: truncate to `n`
bytes or pad with zero bytes up to `n`. -/
def resizeTo (l : List Nat) (n : Nat) : List Nat :=
  l.take n ++ List.replicate (n - l.length) 0

/-! ## BlockHandle (table/format.cc lines 59-88)

`BlockHandle` is a pair of `uint64` (`offset`, `size`), encoded as two
varint64s.  Decoding failure resets the handle to `(0, 0)` and reports
`Corruption("bad block handle")`. -/

structure BlockHandle where
  offset : Nat
  size : Nat
  deriving DecidableEq, Repr

namespace BlockHandle

/-- `BlockHandle::EncodeTo`: appends `PutVarint64Varint64(offset, size)`. -/
def encodeTo (h : BlockHandle) : List Nat :=
  encodeVarint64 h.offset ++ encodeVarint64 h.size

/-- `BlockHandle::DecodeFrom`: reads two varint64s; on success returns `OK`
with the decoded handle and remaining input, otherwise resets the handle to
`(0, 0)` and returns `Corruption("bad block handle")`. -/
def decodeFrom (input : List Nat) : Status × BlockHandle × List Nat :=
  match getVarint64 input with
  | some (off, rest) =>
    match getVarint64 rest with
    | some (sz, rest2) => (Status.ok, ⟨off, sz⟩, rest2)
    | none => (Status.corruption "bad block handle", ⟨0, 0⟩, rest)
  | none => (Status.corruption "bad block handle", ⟨0, 0⟩, input)

end BlockHandle

/-! ## Footer (table/format.cc lines 90-244)

Constants of the footer wire format.  The length constants are fixed by the
layout comments in `table/format.cc` (lines 107-118): the legacy footer is
two max-length block handles (with padding) plus the 8-byte magic; the new
(versioned) footer adds a leading checksum byte and a 4-byte version; the
extent footer (version 3) additionally carries a 4-byte `valid_size` and an
8-byte `next_extent` in front of the checksum byte. -/

/-- Magic number of the current block-based table format
(`kBlockBasedTableMagicNumber`, block_based_table_builder.cc line 194). -/
def kBlockBasedTableMagicNumber : Nat := 0x88e241b785f4cff7

/-- Magic number of the legacy block-based table format
(`kLegacyBlockBasedTableMagicNumber`, block_based_table_builder.cc line 197). -/
def kLegacyBlockBasedTableMagicNumber : Nat := 0xdb4775248b80fb57

/-- Magic number of the plain-table format.  Declared `extern` in format.cc;
its definition lives outside the excerpted sources, so the standard value of
the upstream plain-table factory is used.  Only its distinctness from the
other magics matters here. -/
def kPlainTableMagicNumber : Nat := 0x8242229663bf9564

/-- Legacy plain-table magic; see `kPlainTableMagicNumber`. -/
def kLegacyPlainTableMagicNumber : Nat := 0x4f3418eb7a8f13b8

/-- Modelled from the spec: "a distinct magic identifies the extent-based
layout".  The definition of `kExtentBasedTableMagicNumber` is outside the
excerpted sources; only its distinctness from the other magics matters. -/
def kExtentBasedTableMagicNumber : Nat := 0x88e241b785f4cff8

/-- `ChecksumType::kNoChecksum`. -/
def kNoChecksum : Nat := 0
/-- `ChecksumType::kCRC32c`. -/
def kCRC32c : Nat := 1
/-- `ChecksumType::kxxHash`. -/
def kxxHash : Nat := 2

/-- `BlockHandle::kMaxEncodedLength`: two varint64s of at most 10 bytes. -/
def kMaxEncodedLength : Nat := 20

/-- Length of the 8-byte magic number (`kMagicNumberLengthByte`). -/
def kMagicNumberLengthByte : Nat := 8

/-- `Footer::kVersion0EncodedLength`: legacy footer length
(2 maximal handles plus magic). -/
def kVersion0EncodedLength : Nat := 2 * kMaxEncodedLength + 8

/-- `Footer::kNewVersionsEncodedLength`: checksum byte, 2 maximal handles,
version, magic. -/
def kNewVersionsEncodedLength : Nat := 2 * kMaxEncodedLength + 1 + 4 + 8

/-- `Footer::kVersion3EncodedLength` (extent footer): `valid_size` (4) and
`next_extent` (8) on top of the versioned layout. -/
def kVersion3EncodedLength : Nat := kNewVersionsEncodedLength + 12

/-- `kBlockTrailerSize`: one compression-type byte plus a 4-byte checksum. -/
def kBlockTrailerSize : Nat := 5

/-- `IsLegacyFooterFormat` (format.cc lines 91-94). -/
def IsLegacyFooterFormat (magic : Nat) : Bool :=
  magic = kLegacyBlockBasedTableMagicNumber || magic = kLegacyPlainTableMagicNumber

/-- `UpconvertLegacyFooterFormat` (format.cc lines 95-104). -/
def UpconvertLegacyFooterFormat (magic : Nat) : Nat :=
  if magic = kLegacyBlockBasedTableMagicNumber then kBlockBasedTableMagicNumber
  else if magic = kLegacyPlainTableMagicNumber then kPlainTableMagicNumber
  else 0

/-- The footer of a table file: version, checksum type (stored as its
numeric `ChecksumType` value, as decoding casts an arbitrary decoded integer
to the enum), magic number, the metaindex and index handles and, for the
extent layout, `valid_size` and `next_extent`. -/
structure Footer where
  version : Nat
  checksum : Nat
  tableMagicNumber : Nat
  metaindexHandle : BlockHandle
  indexHandle : BlockHandle
  validSize : Nat
  nextExtent : Nat
  deriving DecidableEq, Repr

/-- `Footer::EncodeTo` (format.cc lines 119-154) on an empty destination
string: three layouts selected by the magic number.  `std::string::resize`
pads with zero bytes; `push_back(static_cast<char>(checksum_))` stores the
low byte of the checksum type. -/
def Footer.encodeTo (f : Footer) : List Nat :=
  if IsLegacyFooterFormat f.tableMagicNumber then
    resizeTo (f.metaindexHandle.encodeTo ++ f.indexHandle.encodeTo) (2 * kMaxEncodedLength)
      ++ encodeFixed32 (f.tableMagicNumber % 2 ^ 32)
      ++ encodeFixed32 (f.tableMagicNumber / 2 ^ 32)
  else if f.tableMagicNumber = kBlockBasedTableMagicNumber then
    resizeTo (f.checksum % 256 :: (f.metaindexHandle.encodeTo ++ f.indexHandle.encodeTo))
        (kNewVersionsEncodedLength - 12)
      ++ encodeFixed32 f.version
      ++ encodeFixed32 (f.tableMagicNumber % 2 ^ 32)
      ++ encodeFixed32 (f.tableMagicNumber / 2 ^ 32)
  else
    resizeTo (encodeFixed32 f.validSize ++ encodeFixed64 f.nextExtent
        ++ f.checksum % 256 :: (f.metaindexHandle.encodeTo ++ f.indexHandle.encodeTo))
        (kVersion3EncodedLength - 12)
      ++ encodeFixed32 f.version
      ++ encodeFixed32 (f.tableMagicNumber % 2 ^ 32)
      ++ encodeFixed32 (f.tableMagicNumber / 2 ^ 32)

/-- Outcome of `Footer::DecodeFrom`: a decoded footer, a returned
`Corruption` status with its message, or a process abort (the `abort()`
call on an unrecognized magic, format.cc line 230). -/
inductive FooterDecodeResult where
  | ok : Footer → FooterDecodeResult
  | corrupt : String → FooterDecodeResult
  | aborted : FooterDecodeResult
  deriving DecidableEq, Repr

/-- `Footer::DecodeFrom` (format.cc lines 175-244).  Reads the trailing
8 bytes as the magic; silently upconverts legacy magics; dispatches on the
layout; reads checksum type (varint32), extent fields (fixed 32/64) and the
two block handles.  An unrecognized magic reaches `abort()`. -/
def Footer.decodeFrom (input : List Nat) : FooterDecodeResult :=
  let len := input.length
  let magicBytes := input.drop (len - kMagicNumberLengthByte)
  let magicLo := decodeFixed32 magicBytes
  let magicHi := decodeFixed32 (magicBytes.drop 4)
  let magic0 := magicHi * 2 ^ 32 + magicLo
  let legacy := IsLegacyFooterFormat magic0
  let magic := if legacy then UpconvertLegacyFooterFormat magic0 else magic0
  if legacy then
    let inp := input.drop (len - kVersion0EncodedLength)
    match BlockHandle.decodeFrom inp with
    | (Status.ok, mh, rest) =>
      match BlockHandle.decodeFrom rest with
      | (Status.ok, ih, _) =>
        .ok ⟨0, kCRC32c, magic, mh, ih, 0, 0⟩
      | _ => .corrupt "bad block handle"
    | _ => .corrupt "bad block handle"
  else if magic = kBlockBasedTableMagicNumber then
    let version := decodeFixed32 (input.drop (len - 12))
    if len < kNewVersionsEncodedLength then
      .corrupt "input is too short to be an sstable"
    else
      let inp := input.drop (len - kNewVersionsEncodedLength)
      match getVarint32 inp with
      | none => .corrupt "bad checksum type"
      | some (chksum, inp1) =>
        match BlockHandle.decodeFrom inp1 with
        | (Status.ok, mh, rest) =>
          match BlockHandle.decodeFrom rest with
          | (Status.ok, ih, _) =>
            .ok ⟨version, chksum, magic, mh, ih, 0, 0⟩
          | _ => .corrupt "bad block handle"
        | _ => .corrupt "bad block handle"
  else if magic = kExtentBasedTableMagicNumber then
    let version := decodeFixed32 (input.drop (len - 12))
    if len < kVersion3EncodedLength then
      .corrupt "input is too short to be an extent sstable"
    else
      let inp := input.drop (len - kVersion3EncodedLength)
      let validSize := decodeFixed32 inp
      let inp1 := inp.drop 4
      let nextExtent := decodeFixed64 inp1
      let inp2 := inp1.drop 8
      match getVarint32 inp2 with
      | none => .corrupt "bad checksum type"
      | some (chksum, inp3) =>
        match BlockHandle.decodeFrom inp3 with
        | (Status.ok, mh, rest) =>
          match BlockHandle.decodeFrom rest with
          | (Status.ok, ih, _) =>
            .ok ⟨version, chksum, magic, mh, ih, validSize, nextExtent⟩
          | _ => .corrupt "bad block handle"
        | _ => .corrupt "bad block handle"
  else
    .aborted

/-- Field combinations that a valid footer of each layout can carry: handles
are `uint64`; a legacy footer has version 0 and CRC32c checksum (asserted by
`Footer::EncodeTo` and the constructor); versioned and extent footers carry a
32-bit version and a checksum-type byte; only an extent footer carries
`valid_size` and `next_extent`. -/
def ValidFooterFields (f : Footer) : Prop :=
  (f.metaindexHandle.offset < 2 ^ 64 ∧ f.metaindexHandle.size < 2 ^ 64 ∧
   f.indexHandle.offset < 2 ^ 64 ∧ f.indexHandle.size < 2 ^ 64) ∧
  ((IsLegacyFooterFormat f.tableMagicNumber = true ∧ f.version = 0 ∧ f.checksum = kCRC32c ∧
      f.validSize = 0 ∧ f.nextExtent = 0) ∨
   (f.tableMagicNumber = kBlockBasedTableMagicNumber ∧ f.version < 2 ^ 32 ∧ f.checksum < 128 ∧
      f.validSize = 0 ∧ f.nextExtent = 0) ∨
   (f.tableMagicNumber = kExtentBasedTableMagicNumber ∧ f.version < 2 ^ 32 ∧ f.checksum < 128 ∧
      f.validSize < 2 ^ 32 ∧ f.nextExtent < 2 ^ 64))

/-- The magic number read by `Footer::DecodeFrom` from the trailing 8 bytes. -/
def footerMagic (input : List Nat) : Nat :=
  decodeFixed32 ((input.drop (input.length - kMagicNumberLengthByte)).drop 4) * 2 ^ 32 +
    decodeFixed32 (input.drop (input.length - kMagicNumberLengthByte))

/-! ## Compression (block_based_table_builder.cc lines 100-184, format.cc) -/

/-- `CompressionType::kNoCompression`. -/
def kNoCompression : Nat := 0
/-- `CompressionType::kSnappyCompression`. -/
def kSnappyCompression : Nat := 1
/-- `CompressionType::kZlibCompression`. -/
def kZlibCompression : Nat := 2
/-- `CompressionType::kBZip2Compression`. -/
def kBZip2Compression : Nat := 3
/-- `CompressionType::kLZ4Compression`. -/
def kLZ4Compression : Nat := 4
/-- `CompressionType::kLZ4HCCompression`. -/
def kLZ4HCCompression : Nat := 5
/-- `CompressionType::kXpressCompression`. -/
def kXpressCompression : Nat := 6
/-- `CompressionType::kZSTD`. -/
def kZSTD : Nat := 7
/-- `CompressionType::kZSTDNotFinalCompression`. -/
def kZSTDNotFinalCompression : Nat := 0x40

/-- The compression types `CompressBlock` has a `case` for (each calling the
corresponding `Xxx_Compress` codec); every other selected type reaches the
`default` label and falls back to no compression. -/
def SupportedCompressionTypes : List Nat :=
  [kSnappyCompression, kZlibCompression, kBZip2Compression, kLZ4Compression,
   kLZ4HCCompression, kXpressCompression, kZSTD, kZSTDNotFinalCompression]

/-- `GoodCompressionRatio` (block_based_table_builder.cc lines 100-103):
the compressed output must be at least 12.5% smaller than the raw input
(`size_t` arithmetic; `raw_size / 8u` rounds down). -/
def GoodCompressionRatio (compressedSize rawSize : Nat) : Bool :=
  compressedSize < rawSize - rawSize / 8

/-- `CompressBlock` (block_based_table_builder.cc lines 108-184),
parameterized by the codec set: `codec t raw` models the
`Xxx_Compress` call selected by the `switch` on `*type` (`none` = the codec
reported failure).  Returns the output bytes and the final `*type`. -/
def CompressBlock (codec : Nat → List Nat → Option (List Nat))
    (raw : List Nat) (type : Nat) : List Nat × Nat :=
  if type = kNoCompression then (raw, type)
  else if type ∈ SupportedCompressionTypes then
    match codec type raw with
    | some compressedOutput =>
      if GoodCompressionRatio compressedOutput.length raw.length then
        (compressedOutput, type)
      else (raw, kNoCompression)
    | none => (raw, kNoCompression)
  else (raw, kNoCompression)

/-! ## ReadBlock (format.cc lines 306-346) -/

/-- The bytes delivered by `file->read(handle.offset(), handle.size() +
kBlockTrailerSize, ...)` on a file whose contents are `file`: at most the
requested count, fewer if the file ends early. -/
def readDelivered (file : List Nat) (handle : BlockHandle) : List Nat :=
  (file.drop handle.offset).take (handle.size + kBlockTrailerSize)

/-- `ReadBlock` (format.cc lines 306-346), parameterized by the checksum
functions of `util/crc32c.h` and `util/xxhash.h`: a truncated read is
`Corruption("truncated block read")`; with `verify_checksums` the stored
4-byte checksum at `data + n + 1` is compared against the checksum
recomputed over `data[0..n]` (block bytes plus type byte), dispatching on
the checksum type recorded in the footer (the stored CRC32c value is
unmasked first); an unrecognized checksum type is
`Corruption("unknown checksum type")`.  Returns the status and the bytes
delivered by the read. -/
def ReadBlock (crc32cValue : List Nat → Nat) (crc32cUnmask : Nat → Nat)
    (xxh32 : List Nat → Nat) (file : List Nat) (footerChecksum : Nat)
    (verifyChecksums : Bool) (handle : BlockHandle) : Status × List Nat :=
  let n := handle.size
  let contents := readDelivered file handle
  if contents.length ≠ n + kBlockTrailerSize then
    (Status.corruption "truncated block read", contents)
  else if verifyChecksums then
    let stored := decodeFixed32 (contents.drop (n + 1))
    if footerChecksum = kCRC32c then
      if crc32cValue (contents.take (n + 1)) ≠ crc32cUnmask stored then
        (Status.corruption "block checksum mismatch", contents)
      else (Status.ok, contents)
    else if footerChecksum = kxxHash then
      if xxh32 (contents.take (n + 1)) ≠ stored then
        (Status.corruption "block checksum mismatch", contents)
      else (Status.ok, contents)
    else (Status.corruption "unknown checksum type", contents)
  else (Status.ok, contents)

/-! ## BlockBasedTableBuilder (block_based_table_builder.cc)

The builder is modelled in its default configuration: flat (binary-search)
index, no filter builder (`skip_filters`), no compression dictionary, no
compressed block cache, and file appends that succeed (I/O errors belong to
the external `WritableFileWriter`).  External functions the builder calls -
checksums, codecs, the `BlockBuilder`/`PropertyBlockBuilder`/
`MetaIndexBuilder` serializers, the flush-block policy, `ExtractValueType`
and `FindShortestSeparator`, none of which are defined in the table-format
sources - are fields of `TableEnv`. -/

/-- Kind of an internal key as classified by `ExtractValueType`: a regular
value-type key or a range-deletion tombstone (`Add` asserts out any other
kind). -/
inductive KeyKind where
  | valueKey : KeyKind
  | rangeDeletion : KeyKind
  deriving DecidableEq, Repr

/-- External collaborators of the builder (see section comment). -/
structure TableEnv where
  crc32cValue : List Nat → Nat
  crc32cMask : Nat → Nat
  xxh32 : List Nat → Nat
  codec : Nat → List Nat → Option (List Nat)
  uncompress : Nat → List Nat → Option (List Nat)
  serializeBlock : List (List Nat × List Nat) → List Nat
  serializeIndexBlock : List (List Nat × BlockHandle) → List Nat
  serializeIndexContents : List (List Nat × List Nat) → List Nat
  serializeProperties : Nat → Nat → Nat → Nat → Nat → Nat → List Nat
  serializeMetaIndex : List (String × BlockHandle) → List Nat
  shouldFlush : List (List Nat × List Nat) → List Nat → List Nat → Bool
  keyKind : List Nat → KeyKind
  shortenSeparator : List Nat → Option (List Nat) → List Nat
  indexSizeEstimate : List (List Nat × BlockHandle) → Nat
  compressionSizeLimit : Nat

/-- Name of the properties meta block (`kPropertiesBlock`, defined in
meta_blocks.cc outside these sources). -/
def kPropertiesBlock : String := "rocksdb.properties"

/-- Name of the range-deletion meta block (`kRangeDelBlock`). -/
def kRangeDelBlock : String := "rocksdb.range_del"

/-- The numeric table properties the builder maintains
(`TableProperties`). -/
structure TableProps where
  numEntries : Nat
  rawKeySize : Nat
  rawValueSize : Nat
  numDataBlocks : Nat
  dataSize : Nat
  indexSize : Nat
  deriving DecidableEq, Repr

/-- `BlockBasedTableBuilder::Rep`: the mutable builder state.  `file` holds
the bytes appended so far. -/
structure BuilderRep where
  offset : Nat
  status : Status
  file : List Nat
  dataBlock : List (List Nat × List Nat)
  rangeDelBlock : List (List Nat × List Nat)
  lastKey : List Nat
  firstKey : List Nat
  props : TableProps
  indexEntries : List (List Nat × BlockHandle)
  pendingHandle : BlockHandle
  closed : Bool
  deriving DecidableEq, Repr

/-- The options of `BlockBasedTableOptions` this code reads. -/
structure BlockBasedTableOptions where
  checksum : Nat
  formatVersion : Nat
  verifyCompression : Bool
  deriving DecidableEq, Repr

namespace BlockBasedTableBuilder

/-- Option sanitization in the `BlockBasedTableBuilder` constructor
(block_based_table_builder.cc lines 349-356): `format_version == 0` with a
non-CRC32c checksum is silently converted to `format_version 1`. -/
def sanitizedTableOptions (o : BlockBasedTableOptions) : BlockBasedTableOptions :=
  if o.formatVersion = 0 ∧ o.checksum ≠ kCRC32c then
    { o with formatVersion := 1 }
  else o

/-- The 4-byte checksum stored in a block trailer by `WriteRawBlock`
(lines 541-560): the `switch` has no `default`; `kNoChecksum` asserts false
and falls through to the CRC32c case; `crc32c::Value` extended over the type
byte is the CRC of `contents ++ [type]`, stored masked; the xxHash case
digests the same bytes. -/
def trailerChecksum (env : TableEnv) (checksumType : Nat)
    (blockContents : List Nat) (type : Nat) : Nat :=
  if checksumType = kxxHash then
    env.xxh32 (blockContents ++ [type]) % 2 ^ 32
  else
    env.crc32cMask (env.crc32cValue (blockContents ++ [type])) % 2 ^ 32

/-- `BlockBasedTableBuilder::WriteRawBlock` (lines 530-570): sets the handle
to the current offset and the contents size, appends the contents and the
5-byte trailer (type byte plus trailer checksum), and advances the offset.
File appends are modelled as succeeding, and with no compressed block cache
`InsertBlockInCache` returns `OK`, so `r->status` ends up `OK`. -/
def WriteRawBlock (env : TableEnv) (opts : BlockBasedTableOptions)
    (r : BuilderRep) (blockContents : List Nat) (type : Nat) :
    BuilderRep × BlockHandle :=
  let handle : BlockHandle := ⟨r.offset, blockContents.length⟩
  let trailer := type :: encodeFixed32 (trailerChecksum env opts.checksum blockContents type)
  ({ r with
     status := Status.ok,
     file := r.file ++ blockContents ++ trailer,
     offset := r.offset + blockContents.length + kBlockTrailerSize }, handle)

/-- `BlockBasedTableBuilder::WriteBlock` (lines 461-528): blocks at or above
`kCompressionSizeLimit` skip compression; otherwise `CompressBlock` runs
and, when the result is compressed and `verify_compression` is set, it is
immediately decompressed and byte-compared against the raw block; a mismatch
or a decompression error latches a `Corruption` into `r->status` and aborts
compression.  An aborted compression writes the raw bytes with
`kNoCompression`. -/
def WriteBlock (env : TableEnv) (opts : BlockBasedTableOptions)
    (compressionType : Nat) (r : BuilderRep) (rawBlockContents : List Nat) :
    BuilderRep × BlockHandle :=
  if rawBlockContents.length < env.compressionSizeLimit then
    let compressed := CompressBlock env.codec rawBlockContents compressionType
    let blockContents := compressed.1
    let type := compressed.2
    let step : BuilderRep × Bool :=
      if type ≠ kNoCompression ∧ opts.verifyCompression = true then
        match env.uncompress type blockContents with
        | some contents =>
          if contents = rawBlockContents then (r, false)
          else ({ r with status :=
              Status.corruption "Decompressed block did not match raw block" }, true)
        | none => ({ r with status := Status.corruption "Could not decompress" }, true)
      else (r, false)
    if step.2 then WriteRawBlock env opts step.1 rawBlockContents kNoCompression
    else WriteRawBlock env opts step.1 blockContents type
  else WriteRawBlock env opts r rawBlockContents kNoCompression

/-- `BlockBasedTableBuilder::Flush` (lines 441-452): a no-op when a non-OK
status is latched or the data block is empty; otherwise serializes and
resets the data block, writes it through `WriteBlock` into
`pending_handle`, and updates `data_size` and `num_data_blocks`. -/
def Flush (env : TableEnv) (opts : BlockBasedTableOptions)
    (compressionType : Nat) (r : BuilderRep) : BuilderRep :=
  if r.status ≠ Status.ok then r
  else if r.dataBlock = [] then r
  else
    let res := WriteBlock env opts compressionType { r with dataBlock := [] }
      (env.serializeBlock r.dataBlock)
    { res.1 with
      pendingHandle := res.2,
      props := { res.1.props with
        dataSize := res.1.offset,
        numDataBlocks := res.1.props.numDataBlocks + 1 } }

/-- `BlockBasedTableBuilder::Add` (lines 379-439): returns the latched
status without mutating anything when `!ok()`; for a value-type key,
records the first key, consults the flush-block policy, flushes and emits
an index entry (shortened separator between the previous block's last key
and the new key) on a cut, then appends to the data block and bumps the
property counters, returning `kOk`; a range-deletion key goes to the
range-deletion block. -/
def Add (env : TableEnv) (opts : BlockBasedTableOptions) (compressionType : Nat)
    (r : BuilderRep) (key value : List Nat) : Status × BuilderRep :=
  if r.status ≠ Status.ok then (r.status, r)
  else match env.keyKind key with
  | KeyKind.valueKey =>
    let r := if r.props.numEntries = 0 then { r with firstKey := key } else r
    let r :=
      if env.shouldFlush r.dataBlock key value then
        let r1 := Flush env opts compressionType r
        if r1.status = Status.ok then
          { r1 with
            indexEntries := r1.indexEntries ++
              [(env.shortenSeparator r1.lastKey (some key), r1.pendingHandle)],
            firstKey := key }
        else r1
      else r
    (Status.ok, { r with
      lastKey := key,
      dataBlock := r.dataBlock ++ [(key, value)],
      props := { r.props with
        numEntries := r.props.numEntries + 1,
        rawKeySize := r.props.rawKeySize + key.length,
        rawValueSize := r.props.rawValueSize + value.length } })
  | KeyKind.rangeDeletion =>
    (Status.ok, { r with
      rangeDelBlock := r.rangeDelBlock ++ [(key, value)],
      props := { r.props with
        numEntries := r.props.numEntries + 1,
        rawKeySize := r.props.rawKeySize + key.length,
        rawValueSize := r.props.rawValueSize + value.length } })

/-- The footer built in `BlockBasedTableBuilder::Finish` (lines 784-808):
legacy magic when `format_version == 0`, canonical magic otherwise, with
the configured checksum type and the metaindex/index handles. -/
def finishFooter (opts : BlockBasedTableOptions)
    (metaindexBlockHandle indexBlockHandle : BlockHandle) : Footer :=
  { version := opts.formatVersion,
    checksum := opts.checksum,
    tableMagicNumber := if opts.formatVersion = 0 then kLegacyBlockBasedTableMagicNumber
      else kBlockBasedTableMagicNumber,
    metaindexHandle := metaindexBlockHandle,
    indexHandle := indexBlockHandle,
    validSize := 0,
    nextExtent := 0 }

/-- `BlockBasedTableBuilder::Finish` (lines 628-811) in the modelled
configuration (flat index, no filter, no compression dictionary): flush the
pending data block; mark closed; emit the final index entry (no next key)
when data was written; clear `first_key`; finalize the flat index builder
(which returns `OK` with the index block contents and no meta blocks, so
the meta-blocks loop writes nothing); then, only while `ok()`: write the
properties block, the range-deletion block if non-empty, the metaindex
block, the index block, and finally the encoded footer. -/
def Finish (env : TableEnv) (opts : BlockBasedTableOptions)
    (compressionType : Nat) (r : BuilderRep) : Status × BuilderRep :=
  let emptyDataBlock := r.dataBlock = []
  let r := Flush env opts compressionType r
  let r := { r with closed := true }
  let r :=
    if r.status = Status.ok ∧ ¬ emptyDataBlock then
      { r with indexEntries := r.indexEntries ++
          [(env.shortenSeparator r.lastKey none, r.pendingHandle)] }
    else r
  let r := { r with firstKey := [] }
  let indexBlockContents := env.serializeIndexBlock r.indexEntries
  if r.status = Status.ok then
    let r := { r with props := { r.props with
        indexSize := env.indexSizeEstimate r.indexEntries + kBlockTrailerSize } }
    let res1 := WriteRawBlock env opts r
      (env.serializeProperties r.props.numEntries r.props.rawKeySize r.props.rawValueSize
        r.props.numDataBlocks r.props.dataSize r.props.indexSize) kNoCompression
    let r := res1.1
    let propertiesBlockHandle := res1.2
    let res2 :=
      if r.status = Status.ok ∧ r.rangeDelBlock ≠ [] then
        let w := WriteRawBlock env opts r (env.serializeBlock r.rangeDelBlock) kNoCompression
        (w.1, [(kRangeDelBlock, w.2)])
      else (r, [])
    let r := res2.1
    if r.status = Status.ok then
      let res3 := WriteRawBlock env opts r
        (env.serializeMetaIndex ([(kPropertiesBlock, propertiesBlockHandle)] ++ res2.2))
        kNoCompression
      let r := res3.1
      let metaindexBlockHandle := res3.2
      let res4 := WriteBlock env opts compressionType r indexBlockContents
      let r := res4.1
      let indexBlockHandle := res4.2
      if r.status = Status.ok then
        let footerEncoding := (finishFooter opts metaindexBlockHandle indexBlockHandle).encodeTo
        let r := { r with
          file := r.file ++ footerEncoding,
          offset := r.offset + footerEncoding.length }
        (r.status, r)
      else (r.status, r)
    else (r.status, r)
  else (r.status, r)

end BlockBasedTableBuilder

/-! ## PartitionedIndexBuilder (table/index_builder.cc lines 70-170) -/

/-- An entry of `PartitionedIndexBuilder::entries_`: the last key of the
sealed partition and the sealed `ShortenedIndexBuilder` (its index
entries). -/
structure PIBEntry where
  key : List Nat
  subIndexEntries : List (List Nat × BlockHandle)
  deriving DecidableEq, Repr

/-- State of a `PartitionedIndexBuilder` at `Finish` time (after the last
`AddIndexEntry(..., nullptr, ...)` has sealed the active sub-index, so
`sub_index_builder_ == nullptr`): the pending partitions, the top-level
index block entries added so far (key, encoded handle), and the
`finishing_indexes` flag. -/
structure PartitionedIndexBuilderState where
  entries : List PIBEntry
  indexBlockEntries : List (List Nat × List Nat)
  finishingIndexes : Bool
  deriving DecidableEq, Repr

/-- `PartitionedIndexBuilder::Finish` (index_builder.cc lines 135-159): on a
`finishing_indexes` call, pop the front partition and add
`(its last key, encoded last_partition_block_handle)` to the top-level
block; then either return `OK` with the finished top-level block (no
partitions left) or finish the next partition in line (its
`ShortenedIndexBuilder::Finish` always returns `OK`) and return
`Incomplete`, setting `finishing_indexes`.  The returned bytes are the
block contents handed to the caller.  The single-argument
`IndexBuilder::Finish` overload is this function with a default-constructed
(unused, since `finishing_indexes` is false) handle. -/
def PIBFinish (env : TableEnv) (st : PartitionedIndexBuilderState)
    (lastPartitionBlockHandle : BlockHandle) :
    Status × List Nat × PartitionedIndexBuilderState :=
  let st :=
    if st.finishingIndexes then
      match st.entries with
      | lastEntry :: rest =>
        { st with
          indexBlockEntries := st.indexBlockEntries ++
            [(lastEntry.key, lastPartitionBlockHandle.encodeTo)],
          entries := rest }
      | [] => st
    else st
  match st.entries with
  | [] => (Status.ok, env.serializeIndexContents st.indexBlockEntries, st)
  | entry :: _ =>
    (Status.incomplete, env.serializeIndexBlock entry.subIndexEntries,
      { st with finishingIndexes := true })

/-- The `while (s.IsIncomplete())` loop of `BlockBasedTableBuilder::Finish`
(block_based_table_builder.cc lines 771-780): keep calling the two-argument
`Finish`, feeding back the handle of the block just written (`hs i` is the
handle produced by writing the `i`-th result), until a status other than
`Incomplete`; the list collects the statuses the loop observes. -/
def PIBFinishLoop (env : TableEnv) (hs : Nat → BlockHandle) :
    Nat → Nat → PartitionedIndexBuilderState → List Status
  | 0, _, _ => []
  | fuel + 1, i, st =>
    let res := PIBFinish env st (hs i)
    if res.1 = Status.incomplete then
      res.1 :: PIBFinishLoop env hs fuel (i + 1) res.2.2
    else [res.1]

/-- A `TableEnv` with trivial collaborators, used to instantiate theorems at
concrete inputs. -/
def sampleEnv : TableEnv :=
  ⟨fun _ => 0, fun v => v, fun _ => 0, fun _ _ => none, fun _ _ => none,
   fun _ => [], fun _ => [], fun _ => [], fun _ _ _ _ _ _ => [], fun _ => [],
   fun _ _ _ => false, fun _ => KeyKind.valueKey, fun k _ => k, fun _ => 0, 0⟩

/-- A `TableEnv` whose codec "compresses" every block to `[1]` but whose
decompressor returns `[9]`, so compression verification always fails. -/
def mismatchEnv : TableEnv :=
  { sampleEnv with
    codec := fun _ _ => some [1],
    uncompress := fun _ _ => some [9],
    compressionSizeLimit := 100 }

/-- A freshly constructed builder state. -/
def sampleRep : BuilderRep :=
  ⟨0, Status.ok, [], [], [], [], [], ⟨0, 0, 0, 0, 0, 0⟩, [], ⟨0, 0⟩, false⟩

theorem length_resizeTo (l : List Nat) (n : Nat) : (resizeTo l n).length = n := by
  simp [resizeTo]
  omega

theorem resizeTo_of_le {l : List Nat} {n : Nat} (h : l.length ≤ n) :
    resizeTo l n = l ++ List.replicate (n - l.length) 0 := by
  simp [resizeTo, List.take_of_length_le h]

/-! ### Codec lemmas -/

theorem decodeFixed32_encodeFixed32 (v : Nat) (rest : List Nat) :
    decodeFixed32 (encodeFixed32 v ++ rest) = v % 2 ^ 32 := by
  simp [encodeFixed32, decodeFixed32]
  omega

theorem length_encodeFixed32 (v : Nat) : (encodeFixed32 v).length = 4 := rfl

theorem length_encodeFixed64 (v : Nat) : (encodeFixed64 v).length = 8 := rfl

theorem decodeFixed64_encodeFixed64 (v : Nat) (rest : List Nat) (hv : v < 2 ^ 64) :
    decodeFixed64 (encodeFixed64 v ++ rest) = v := by
  have h1 : encodeFixed64 v ++ rest =
      encodeFixed32 (v % 2 ^ 32) ++ (encodeFixed32 (v / 2 ^ 32 % 2 ^ 32) ++ rest) := by
    simp [encodeFixed64]
  have hd : (encodeFixed64 v ++ rest).drop 4 = encodeFixed32 (v / 2 ^ 32 % 2 ^ 32) ++ rest := by
    rw [h1]
    rw [show (4 : Nat) = (encodeFixed32 (v % 2 ^ 32)).length from rfl]
    exact List.drop_left _ _
  have hdiv : v / 2 ^ 32 < 2 ^ 32 := by
    apply Nat.div_lt_of_lt_mul
    calc v < 2 ^ 64 := hv
    _ = 2 ^ 32 * 2 ^ 32 := by norm_num
  unfold decodeFixed64
  rw [hd, h1, decodeFixed32_encodeFixed32, decodeFixed32_encodeFixed32]
  have e32 : (2 : Nat) ^ 32 = 4294967296 := by norm_num
  have e64 : (2 : Nat) ^ 64 = 18446744073709551616 := by norm_num
  rw [e32] at *
  rw [e64] at hv
  omega

theorem encodeVarint64_byte_lt {v : Nat} : ∀ b ∈ encodeVarint64 v, b < 256 := by
  induction v using Nat.strong_induction_on with
  | _ v ih =>
    intro b hb
    unfold encodeVarint64 at hb
    by_cases h : v < 128
    · simp [h] at hb; omega
    · simp [h] at hb
      rcases hb with hb | hb
      · have := Nat.mod_lt v (show 0 < 128 by norm_num); omega
      · exact ih (v / 128) (Nat.div_lt_self (by omega) (by omega)) b hb

theorem length_encodeVarint64 {v k : Nat} (hk : 1 ≤ k) (hv : v < 2 ^ (7 * k)) :
    (encodeVarint64 v).length ≤ k := by
  induction k generalizing v with
  | zero => omega
  | succ k ih =>
    unfold encodeVarint64
    by_cases h : v < 128
    · simp [h]
    · simp only [h, dite_false, List.length_cons]
      have hk' : 1 ≤ k := by
        by_contra hc
        have : k = 0 := by omega
        subst this
        simp [Nat.mul_one] at hv
        omega
      have : v / 128 < 2 ^ (7 * k) := by
        apply Nat.div_lt_of_lt_mul
        calc v < 2 ^ (7 * (k + 1)) := hv
        _ = 128 * 2 ^ (7 * k) := by
          rw [show 7 * (k + 1) = 7 + 7 * k by ring, pow_add]
          norm_num
      have := ih hk' this
      omega

theorem getVarint64Loop_encode (v : Nat) (rest : List Nat) :
    ∀ shift acc, shift ≤ 63 → acc < 2 ^ shift → v < 2 ^ (64 - shift) →
    getVarint64Loop (encodeVarint64 v ++ rest) shift acc = some (acc + v * 2 ^ shift, rest) := by
  induction v using Nat.strong_induction_on with
  | _ v ih =>
    intro shift acc hshift hacc hv
    unfold encodeVarint64
    by_cases h : v < 128
    · simp only [h, dite_true, List.cons_append, getVarint64Loop]
      have h1 : ¬ shift > 63 := by omega
      have h2 : ¬ 128 ≤ v := by omega
      simp only [h1, if_false, h2, ite_false]
      have hsmall : acc + v * 2 ^ shift < 2 ^ 64 := by
        have hv1 : v + 1 ≤ 2 ^ (64 - shift) := hv
        calc acc + v * 2 ^ shift < 2 ^ shift + v * 2 ^ shift := by omega
        _ = (v + 1) * 2 ^ shift := by ring
        _ ≤ 2 ^ (64 - shift) * 2 ^ shift := Nat.mul_le_mul_right _ hv1
        _ = 2 ^ 64 := by
          rw [← pow_add]
          congr 1
          omega
      rw [Nat.mod_eq_of_lt hsmall]
      simp
    · simp only [h, dite_false, List.cons_append, getVarint64Loop]
      have hs7 : shift + 7 ≤ 63 := by
        by_contra hc
        have h57 : 57 ≤ shift := by omega
        have : (64 : Nat) - shift ≤ 7 := by omega
        have : 2 ^ (64 - shift) ≤ 2 ^ 7 := Nat.pow_le_pow_right (by norm_num) this
        omega
      have h1 : ¬ shift > 63 := by omega
      have h2 : 128 ≤ v % 128 + 128 := by omega
      simp only [h1, if_false, h2, ite_true]
      have hm : v % 128 + 128 - 128 = v % 128 := by omega
      have hmodsmall : acc + (v % 128 + 128 - 128) * 2 ^ shift < 2 ^ (shift + 7) := by
        rw [hm]
        have h127 : v % 128 * 2 ^ shift ≤ 127 * 2 ^ shift :=
          Nat.mul_le_mul_right _ (by omega)
        have hpow : (2 : Nat) ^ (shift + 7) = 2 ^ shift * 128 := by
          rw [pow_add]
          norm_num
        omega
      have hmod : (acc + (v % 128 + 128 - 128) * 2 ^ shift) % 2 ^ 64 =
          acc + (v % 128 + 128 - 128) * 2 ^ shift := by
        apply Nat.mod_eq_of_lt
        calc acc + (v % 128 + 128 - 128) * 2 ^ shift < 2 ^ (shift + 7) := hmodsmall
        _ ≤ 2 ^ 64 := Nat.pow_le_pow_right (by norm_num) (by omega)
      rw [hmod]
      have hdivlt : v / 128 < 2 ^ (64 - (shift + 7)) := by
        apply Nat.div_lt_of_lt_mul
        calc v < 2 ^ (64 - shift) := hv
        _ = 128 * 2 ^ (64 - (shift + 7)) := by
          rw [show 64 - shift = 7 + (64 - (shift + 7)) by omega, pow_add]
          norm_num
      have hrec := ih (v / 128) (Nat.div_lt_self (by omega) (by omega)) (shift + 7)
        (acc + (v % 128 + 128 - 128) * 2 ^ shift) hs7 hmodsmall hdivlt
      rw [hrec]
      simp only [Option.some.injEq, Prod.mk.injEq, and_true]
      rw [hm, pow_add]
      have hdm := Nat.div_add_mod v 128
      calc acc + v % 128 * 2 ^ shift + v / 128 * (2 ^ shift * 2 ^ 7)
          = acc + (128 * (v / 128) + v % 128) * 2 ^ shift := by
            rw [show (2 : Nat) ^ 7 = 128 by norm_num]
            ring
        _ = acc + v * 2 ^ shift := by rw [hdm]

theorem getVarint64_encode (v : Nat) (rest : List Nat) (hv : v < 2 ^ 64) :
    getVarint64 (encodeVarint64 v ++ rest) = some (v, rest) := by
  unfold getVarint64
  rw [getVarint64Loop_encode v rest 0 0 (by norm_num) (by norm_num) (by simpa using hv)]
  simp

theorem getVarint64Loop_highbits {l : List Nat} (h : ∀ b ∈ l, 128 ≤ b) :
    ∀ shift acc, getVarint64Loop l shift acc = none := by
  induction l with
  | nil => intro shift acc; rfl
  | cons b rest ih =>
    intro shift acc
    unfold getVarint64Loop
    by_cases hs : shift > 63
    · simp [hs]
    · have hb : 128 ≤ b := h b (by simp)
      simp only [hs, if_false, hb, ite_true]
      exact ih (fun x hx => h x (by simp [hx])) _ _

theorem getVarint32Loop_single {b : Nat} (hb : b < 128) (rest : List Nat) :
    getVarint32 (b :: rest) = some (b, rest) := by
  unfold getVarint32 getVarint32Loop
  have h2 : ¬ 128 ≤ b := by omega
  simp [h2]
  omega

theorem blockHandle_decode_encode (h : BlockHandle) (rest : List Nat)
    (ho : h.offset < 2 ^ 64) (hs : h.size < 2 ^ 64) :
    BlockHandle.decodeFrom (h.encodeTo ++ rest) = (Status.ok, h, rest) := by
  unfold BlockHandle.decodeFrom BlockHandle.encodeTo
  rw [List.append_assoc, getVarint64_encode _ _ ho]
  simp only
  rw [getVarint64_encode _ _ hs]

theorem blockHandle_encodeTo_length_le (h : BlockHandle)
    (ho : h.offset < 2 ^ 64) (hs : h.size < 2 ^ 64) : h.encodeTo.length ≤ 20 := by
  unfold BlockHandle.encodeTo
  rw [List.length_append]
  have h1 : (encodeVarint64 h.offset).length ≤ 10 :=
    length_encodeVarint64 (by norm_num) (by
      calc h.offset < 2 ^ 64 := ho
      _ ≤ 2 ^ (7 * 10) := by norm_num)
  have h2 : (encodeVarint64 h.size).length ≤ 10 :=
    length_encodeVarint64 (by norm_num) (by
      calc h.size < 2 ^ 64 := hs
      _ ≤ 2 ^ (7 * 10) := by norm_num)
  omega

theorem footer_decode_encode_legacy (ver chk m vs ne : Nat) (mh ih : BlockHandle)
    (hm : IsLegacyFooterFormat m = true)
    (hv : ver = 0) (hc : chk = kCRC32c) (hvs : vs = 0) (hne : ne = 0)
    (h1 : mh.offset < 2 ^ 64) (h2 : mh.size < 2 ^ 64)
    (h3 : ih.offset < 2 ^ 64) (h4 : ih.size < 2 ^ 64) :
    Footer.decodeFrom (Footer.encodeTo ⟨ver, chk, m, mh, ih, vs, ne⟩) =
      .ok ⟨ver, chk, UpconvertLegacyFooterFormat m, mh, ih, vs, ne⟩ := by
  subst hv hc hvs hne
  have hm64 : m < 2 ^ 64 := by
    rcases (by simpa [IsLegacyFooterFormat] using hm : _ ∨ _) with h | h
    · rw [h]; norm_num [kLegacyBlockBasedTableMagicNumber]
    · rw [h]; norm_num [kLegacyPlainTableMagicNumber]
  have hbody : (mh.encodeTo ++ ih.encodeTo).length ≤ 40 := by
    rw [List.length_append]
    have := blockHandle_encodeTo_length_le mh h1 h2
    have := blockHandle_encodeTo_length_le ih h3 h4
    omega
  have h2k : 2 * kMaxEncodedLength = 40 := by norm_num [kMaxEncodedLength]
  have henc : Footer.encodeTo ⟨0, kCRC32c, m, mh, ih, 0, 0⟩ =
      (mh.encodeTo ++ ih.encodeTo ++
        List.replicate (40 - (mh.encodeTo ++ ih.encodeTo).length) 0) ++
      (encodeFixed32 (m % 2 ^ 32) ++ encodeFixed32 (m / 2 ^ 32)) := by
    simp only [Footer.encodeTo, hm, if_true]
    rw [h2k, resizeTo_of_le hbody]
    simp [List.append_assoc]
  have hA : (mh.encodeTo ++ ih.encodeTo ++
      List.replicate (40 - (mh.encodeTo ++ ih.encodeTo).length) 0).length = 40 := by
    rw [List.length_append, List.length_replicate]
    omega
  have hlen : ((mh.encodeTo ++ ih.encodeTo ++
      List.replicate (40 - (mh.encodeTo ++ ih.encodeTo).length) 0) ++
      (encodeFixed32 (m % 2 ^ 32) ++ encodeFixed32 (m / 2 ^ 32))).length = 48 := by
    rw [List.length_append, hA]
    simp [encodeFixed32]
  have hdropA : ((mh.encodeTo ++ ih.encodeTo ++
      List.replicate (40 - (mh.encodeTo ++ ih.encodeTo).length) 0) ++
      (encodeFixed32 (m % 2 ^ 32) ++ encodeFixed32 (m / 2 ^ 32))).drop 40 =
      encodeFixed32 (m % 2 ^ 32) ++ encodeFixed32 (m / 2 ^ 32) :=
    List.drop_left' hA
  have hdiv : m / 2 ^ 32 < 2 ^ 32 := by
    apply Nat.div_lt_of_lt_mul
    calc m < 2 ^ 64 := hm64
    _ = 2 ^ 32 * 2 ^ 32 := by norm_num
  have hlo : decodeFixed32 (encodeFixed32 (m % 2 ^ 32) ++ encodeFixed32 (m / 2 ^ 32)) =
      m % 2 ^ 32 := by
    rw [decodeFixed32_encodeFixed32]
    exact Nat.mod_mod_of_dvd m dvd_rfl
  have hdrop4 : (encodeFixed32 (m % 2 ^ 32) ++ encodeFixed32 (m / 2 ^ 32)).drop 4 =
      encodeFixed32 (m / 2 ^ 32) := by
    rw [show (4 : Nat) = (encodeFixed32 (m % 2 ^ 32)).length from rfl]
    exact List.drop_left _ _
  have hhi : decodeFixed32 (encodeFixed32 (m / 2 ^ 32)) = m / 2 ^ 32 := by
    rw [← List.append_nil (encodeFixed32 (m / 2 ^ 32)), decodeFixed32_encodeFixed32]
    exact Nat.mod_eq_of_lt hdiv
  have hdm : m / 2 ^ 32 * 2 ^ 32 + m % 2 ^ 32 = m := by
    rw [Nat.mul_comm]
    exact Nat.div_add_mod m (2 ^ 32)
  have hbh : ∀ rest, BlockHandle.decodeFrom (mh.encodeTo ++ rest) = (Status.ok, mh, rest) :=
    fun r => blockHandle_decode_encode mh r h1 h2
  have hbh2 : ∀ rest, BlockHandle.decodeFrom (ih.encodeTo ++ rest) = (Status.ok, ih, rest) :=
    fun r => blockHandle_decode_encode ih r h3 h4
  rw [henc]
  simp only [Footer.decodeFrom, kMagicNumberLengthByte, kVersion0EncodedLength, kMaxEncodedLength]
  rw [hlen]
  rw [show (48 : Nat) - 8 = 40 from rfl]
  rw [hdropA, hdrop4, hhi, hlo, hdm, hm]
  rw [show (48 : Nat) - (2 * 20 + 8) = 0 from rfl]
  simp [hbh, hbh2]

theorem footer_decode_encode_versioned (ver chk vs ne : Nat) (mh ih : BlockHandle)
    (hver : ver < 2 ^ 32) (hchk : chk < 128) (hvs : vs = 0) (hne : ne = 0)
    (h1 : mh.offset < 2 ^ 64) (h2 : mh.size < 2 ^ 64)
    (h3 : ih.offset < 2 ^ 64) (h4 : ih.size < 2 ^ 64) :
    Footer.decodeFrom (Footer.encodeTo ⟨ver, chk, kBlockBasedTableMagicNumber, mh, ih, vs, ne⟩) =
      .ok ⟨ver, chk, kBlockBasedTableMagicNumber, mh, ih, vs, ne⟩ := by
  subst hvs hne
  have hc256 : chk % 256 = chk := Nat.mod_eq_of_lt (by omega)
  have hm64 : kBlockBasedTableMagicNumber < 2 ^ 64 := by
    norm_num [kBlockBasedTableMagicNumber]
  have hnl : IsLegacyFooterFormat kBlockBasedTableMagicNumber = false := by decide
  have hbody : (mh.encodeTo ++ ih.encodeTo).length ≤ 40 := by
    rw [List.length_append]
    have := blockHandle_encodeTo_length_le mh h1 h2
    have := blockHandle_encodeTo_length_le ih h3 h4
    omega
  have hcons : (chk :: (mh.encodeTo ++ ih.encodeTo)).length ≤ 41 := by
    rw [List.length_cons]
    omega
  have henc : Footer.encodeTo ⟨ver, chk, kBlockBasedTableMagicNumber, mh, ih, 0, 0⟩ =
      chk :: ((mh.encodeTo ++ ih.encodeTo ++
          List.replicate (41 - (chk :: (mh.encodeTo ++ ih.encodeTo)).length) 0) ++
        (encodeFixed32 ver ++
          (encodeFixed32 (kBlockBasedTableMagicNumber % 2 ^ 32) ++
           encodeFixed32 (kBlockBasedTableMagicNumber / 2 ^ 32)))) := by
    simp only [Footer.encodeTo, hnl, Bool.false_eq_true, if_false, hc256, if_pos rfl]
    rw [show kNewVersionsEncodedLength - 12 = 41 by
      norm_num [kNewVersionsEncodedLength, kMaxEncodedLength]]
    rw [resizeTo_of_le hcons]
    simp [List.append_assoc]
  have hA : (mh.encodeTo ++ ih.encodeTo ++
      List.replicate (41 - (chk :: (mh.encodeTo ++ ih.encodeTo)).length) 0).length = 40 := by
    simp only [List.length_append, List.length_replicate, List.length_cons]
    rw [List.length_append] at hbody
    omega
  have hlenE : (chk :: ((mh.encodeTo ++ ih.encodeTo ++
          List.replicate (41 - (chk :: (mh.encodeTo ++ ih.encodeTo)).length) 0) ++
        (encodeFixed32 ver ++
          (encodeFixed32 (kBlockBasedTableMagicNumber % 2 ^ 32) ++
           encodeFixed32 (kBlockBasedTableMagicNumber / 2 ^ 32))))).length = 53 := by
    rw [List.length_cons, List.length_append, hA]
    simp [encodeFixed32]
  have hd41 : (chk :: ((mh.encodeTo ++ ih.encodeTo ++
          List.replicate (41 - (chk :: (mh.encodeTo ++ ih.encodeTo)).length) 0) ++
        (encodeFixed32 ver ++
          (encodeFixed32 (kBlockBasedTableMagicNumber % 2 ^ 32) ++
           encodeFixed32 (kBlockBasedTableMagicNumber / 2 ^ 32))))).drop 41 =
      encodeFixed32 ver ++
        (encodeFixed32 (kBlockBasedTableMagicNumber % 2 ^ 32) ++
         encodeFixed32 (kBlockBasedTableMagicNumber / 2 ^ 32)) := by
    rw [List.drop_succ_cons]
    exact List.drop_left' hA
  have hd45 : (chk :: ((mh.encodeTo ++ ih.encodeTo ++
          List.replicate (41 - (chk :: (mh.encodeTo ++ ih.encodeTo)).length) 0) ++
        (encodeFixed32 ver ++
          (encodeFixed32 (kBlockBasedTableMagicNumber % 2 ^ 32) ++
           encodeFixed32 (kBlockBasedTableMagicNumber / 2 ^ 32))))).drop 45 =
      encodeFixed32 (kBlockBasedTableMagicNumber % 2 ^ 32) ++
        encodeFixed32 (kBlockBasedTableMagicNumber / 2 ^ 32) := by
    rw [show (45 : Nat) = 41 + 4 by norm_num, ← List.drop_drop, hd41]
    rw [show (4 : Nat) = (encodeFixed32 ver).length from rfl]
    exact List.drop_left _ _
  have hdiv : kBlockBasedTableMagicNumber / 2 ^ 32 < 2 ^ 32 := by
    apply Nat.div_lt_of_lt_mul
    calc kBlockBasedTableMagicNumber < 2 ^ 64 := hm64
    _ = 2 ^ 32 * 2 ^ 32 := by norm_num
  have hlo : decodeFixed32 (encodeFixed32 (kBlockBasedTableMagicNumber % 2 ^ 32) ++
      encodeFixed32 (kBlockBasedTableMagicNumber / 2 ^ 32)) =
      kBlockBasedTableMagicNumber % 2 ^ 32 := by
    rw [decodeFixed32_encodeFixed32]
    exact Nat.mod_mod_of_dvd _ dvd_rfl
  have hdrop4 : (encodeFixed32 (kBlockBasedTableMagicNumber % 2 ^ 32) ++
      encodeFixed32 (kBlockBasedTableMagicNumber / 2 ^ 32)).drop 4 =
      encodeFixed32 (kBlockBasedTableMagicNumber / 2 ^ 32) := by
    rw [show (4 : Nat) = (encodeFixed32 (kBlockBasedTableMagicNumber % 2 ^ 32)).length from rfl]
    exact List.drop_left _ _
  have hhi : decodeFixed32 (encodeFixed32 (kBlockBasedTableMagicNumber / 2 ^ 32)) =
      kBlockBasedTableMagicNumber / 2 ^ 32 := by
    rw [← List.append_nil (encodeFixed32 (kBlockBasedTableMagicNumber / 2 ^ 32)),
      decodeFixed32_encodeFixed32]
    exact Nat.mod_eq_of_lt hdiv
  have hdm : kBlockBasedTableMagicNumber / 2 ^ 32 * 2 ^ 32 +
      kBlockBasedTableMagicNumber % 2 ^ 32 = kBlockBasedTableMagicNumber := by
    rw [Nat.mul_comm]
    exact Nat.div_add_mod _ (2 ^ 32)
  have hdver : decodeFixed32 (encodeFixed32 ver ++
      (encodeFixed32 (kBlockBasedTableMagicNumber % 2 ^ 32) ++
       encodeFixed32 (kBlockBasedTableMagicNumber / 2 ^ 32))) = ver := by
    rw [decodeFixed32_encodeFixed32]
    exact Nat.mod_eq_of_lt hver
  have hvar : getVarint32 (chk :: ((mh.encodeTo ++ ih.encodeTo ++
          List.replicate (41 - (chk :: (mh.encodeTo ++ ih.encodeTo)).length) 0) ++
        (encodeFixed32 ver ++
          (encodeFixed32 (kBlockBasedTableMagicNumber % 2 ^ 32) ++
           encodeFixed32 (kBlockBasedTableMagicNumber / 2 ^ 32))))) =
      some (chk, (mh.encodeTo ++ ih.encodeTo ++
          List.replicate (41 - (chk :: (mh.encodeTo ++ ih.encodeTo)).length) 0) ++
        (encodeFixed32 ver ++
          (encodeFixed32 (kBlockBasedTableMagicNumber % 2 ^ 32) ++
           encodeFixed32 (kBlockBasedTableMagicNumber / 2 ^ 32)))) :=
    getVarint32Loop_single hchk _
  have hbh : ∀ rest, BlockHandle.decodeFrom (mh.encodeTo ++ rest) = (Status.ok, mh, rest) :=
    fun r => blockHandle_decode_encode mh r h1 h2
  have hbh2 : ∀ rest, BlockHandle.decodeFrom (ih.encodeTo ++ rest) = (Status.ok, ih, rest) :=
    fun r => blockHandle_decode_encode ih r h3 h4
  rw [henc]
  simp only [Footer.decodeFrom, kMagicNumberLengthByte]
  rw [hlenE]
  rw [show (53 : Nat) - 8 = 45 from by norm_num]
  rw [hd45, hdrop4, hhi, hlo, hdm, hnl]
  rw [show (53 : Nat) - 12 = 41 from by norm_num]
  rw [hd41, hdver]
  rw [show (53 : Nat) - kNewVersionsEncodedLength = 0 from by
    norm_num [kNewVersionsEncodedLength, kMaxEncodedLength]]
  rw [List.drop_zero, hvar]
  simp [hbh, hbh2, kNewVersionsEncodedLength, kMaxEncodedLength]

theorem footer_decode_encode_extent (ver chk vs ne : Nat) (mh ih : BlockHandle)
    (hver : ver < 2 ^ 32) (hchk : chk < 128) (hvs : vs < 2 ^ 32) (hne : ne < 2 ^ 64)
    (h1 : mh.offset < 2 ^ 64) (h2 : mh.size < 2 ^ 64)
    (h3 : ih.offset < 2 ^ 64) (h4 : ih.size < 2 ^ 64) :
    Footer.decodeFrom (Footer.encodeTo ⟨ver, chk, kExtentBasedTableMagicNumber, mh, ih, vs, ne⟩) =
      .ok ⟨ver, chk, kExtentBasedTableMagicNumber, mh, ih, vs, ne⟩ := by
  have hc256 : chk % 256 = chk := Nat.mod_eq_of_lt (by omega)
  have hm64 : kExtentBasedTableMagicNumber < 2 ^ 64 := by
    norm_num [kExtentBasedTableMagicNumber]
  have hnlx : IsLegacyFooterFormat kExtentBasedTableMagicNumber = false := by decide
  have hne2 : kExtentBasedTableMagicNumber ≠ kBlockBasedTableMagicNumber := by decide
  have hbody : (mh.encodeTo ++ ih.encodeTo).length ≤ 40 := by
    rw [List.length_append]
    have := blockHandle_encodeTo_length_le mh h1 h2
    have := blockHandle_encodeTo_length_le ih h3 h4
    omega
  have hbody13 : (encodeFixed32 vs ++ encodeFixed64 ne ++
      chk :: (mh.encodeTo ++ ih.encodeTo)).length ≤ 53 := by
    simp only [List.length_append, List.length_cons, length_encodeFixed32, length_encodeFixed64]
    rw [List.length_append] at hbody
    omega
  have henc : Footer.encodeTo ⟨ver, chk, kExtentBasedTableMagicNumber, mh, ih, vs, ne⟩ =
      encodeFixed32 vs ++ (encodeFixed64 ne ++
        (chk :: ((mh.encodeTo ++ ih.encodeTo ++
            List.replicate (53 - (encodeFixed32 vs ++ encodeFixed64 ne ++
              chk :: (mh.encodeTo ++ ih.encodeTo)).length) 0) ++
          (encodeFixed32 ver ++
            (encodeFixed32 (kExtentBasedTableMagicNumber % 2 ^ 32) ++
             encodeFixed32 (kExtentBasedTableMagicNumber / 2 ^ 32)))))) := by
    simp only [Footer.encodeTo, hnlx, Bool.false_eq_true, if_false, hc256]
    rw [if_neg hne2]
    rw [show kVersion3EncodedLength - 12 = 53 by
      norm_num [kVersion3EncodedLength, kNewVersionsEncodedLength, kMaxEncodedLength]]
    rw [resizeTo_of_le hbody13]
    simp [List.append_assoc]
  have hA : (mh.encodeTo ++ ih.encodeTo ++
      List.replicate (53 - (encodeFixed32 vs ++ encodeFixed64 ne ++
        chk :: (mh.encodeTo ++ ih.encodeTo)).length) 0).length = 40 := by
    simp only [List.length_append, List.length_replicate, List.length_cons,
      length_encodeFixed32, length_encodeFixed64]
    rw [List.length_append] at hbody
    omega
  have hlenE : (encodeFixed32 vs ++ (encodeFixed64 ne ++
      (chk :: ((mh.encodeTo ++ ih.encodeTo ++
          List.replicate (53 - (encodeFixed32 vs ++ encodeFixed64 ne ++
            chk :: (mh.encodeTo ++ ih.encodeTo)).length) 0) ++
        (encodeFixed32 ver ++
          (encodeFixed32 (kExtentBasedTableMagicNumber % 2 ^ 32) ++
           encodeFixed32 (kExtentBasedTableMagicNumber / 2 ^ 32))))))).length = 65 := by
    simp only [List.length_append, List.length_cons, List.length_replicate,
      length_encodeFixed32, length_encodeFixed64]
    rw [List.length_append] at hbody
    omega
  have hd4E : (encodeFixed32 vs ++ (encodeFixed64 ne ++
      (chk :: ((mh.encodeTo ++ ih.encodeTo ++
          List.replicate (53 - (encodeFixed32 vs ++ encodeFixed64 ne ++
            chk :: (mh.encodeTo ++ ih.encodeTo)).length) 0) ++
        (encodeFixed32 ver ++
          (encodeFixed32 (kExtentBasedTableMagicNumber % 2 ^ 32) ++
           encodeFixed32 (kExtentBasedTableMagicNumber / 2 ^ 32))))))).drop 4 =
      encodeFixed64 ne ++
      (chk :: ((mh.encodeTo ++ ih.encodeTo ++
          List.replicate (53 - (encodeFixed32 vs ++ encodeFixed64 ne ++
            chk :: (mh.encodeTo ++ ih.encodeTo)).length) 0) ++
        (encodeFixed32 ver ++
          (encodeFixed32 (kExtentBasedTableMagicNumber % 2 ^ 32) ++
           encodeFixed32 (kExtentBasedTableMagicNumber / 2 ^ 32))))) := by
    rw [show (4 : Nat) = (encodeFixed32 vs).length from rfl]
    exact List.drop_left _ _
  have hdrop12 : (encodeFixed64 ne ++
      (chk :: ((mh.encodeTo ++ ih.encodeTo ++
          List.replicate (53 - (encodeFixed32 vs ++ encodeFixed64 ne ++
            chk :: (mh.encodeTo ++ ih.encodeTo)).length) 0) ++
        (encodeFixed32 ver ++
          (encodeFixed32 (kExtentBasedTableMagicNumber % 2 ^ 32) ++
           encodeFixed32 (kExtentBasedTableMagicNumber / 2 ^ 32)))))).drop 8 =
      chk :: ((mh.encodeTo ++ ih.encodeTo ++
          List.replicate (53 - (encodeFixed32 vs ++ encodeFixed64 ne ++
            chk :: (mh.encodeTo ++ ih.encodeTo)).length) 0) ++
        (encodeFixed32 ver ++
          (encodeFixed32 (kExtentBasedTableMagicNumber % 2 ^ 32) ++
           encodeFixed32 (kExtentBasedTableMagicNumber / 2 ^ 32)))) := by
    rw [show (8 : Nat) = (encodeFixed64 ne).length from rfl]
    exact List.drop_left _ _
  have hd53 : (encodeFixed32 vs ++ (encodeFixed64 ne ++
      (chk :: ((mh.encodeTo ++ ih.encodeTo ++
          List.replicate (53 - (encodeFixed32 vs ++ encodeFixed64 ne ++
            chk :: (mh.encodeTo ++ ih.encodeTo)).length) 0) ++
        (encodeFixed32 ver ++
          (encodeFixed32 (kExtentBasedTableMagicNumber % 2 ^ 32) ++
           encodeFixed32 (kExtentBasedTableMagicNumber / 2 ^ 32))))))).drop 53 =
      encodeFixed32 ver ++
        (encodeFixed32 (kExtentBasedTableMagicNumber % 2 ^ 32) ++
         encodeFixed32 (kExtentBasedTableMagicNumber / 2 ^ 32)) := by
    rw [show (53 : Nat) = 4 + 49 by norm_num, ← List.drop_drop, hd4E]
    rw [show (49 : Nat) = 8 + 41 by norm_num, ← List.drop_drop, hdrop12]
    rw [List.drop_succ_cons]
    exact List.drop_left' hA
  have hd57 : (encodeFixed32 vs ++ (encodeFixed64 ne ++
      (chk :: ((mh.encodeTo ++ ih.encodeTo ++
          List.replicate (53 - (encodeFixed32 vs ++ encodeFixed64 ne ++
            chk :: (mh.encodeTo ++ ih.encodeTo)).length) 0) ++
        (encodeFixed32 ver ++
          (encodeFixed32 (kExtentBasedTableMagicNumber % 2 ^ 32) ++
           encodeFixed32 (kExtentBasedTableMagicNumber / 2 ^ 32))))))).drop 57 =
      encodeFixed32 (kExtentBasedTableMagicNumber % 2 ^ 32) ++
        encodeFixed32 (kExtentBasedTableMagicNumber / 2 ^ 32) := by
    rw [show (57 : Nat) = 53 + 4 by norm_num, ← List.drop_drop, hd53]
    rw [show (4 : Nat) = (encodeFixed32 ver).length from rfl]
    exact List.drop_left _ _
  have hdiv : kExtentBasedTableMagicNumber / 2 ^ 32 < 2 ^ 32 := by
    apply Nat.div_lt_of_lt_mul
    calc kExtentBasedTableMagicNumber < 2 ^ 64 := hm64
    _ = 2 ^ 32 * 2 ^ 32 := by norm_num
  have hlo : decodeFixed32 (encodeFixed32 (kExtentBasedTableMagicNumber % 2 ^ 32) ++
      encodeFixed32 (kExtentBasedTableMagicNumber / 2 ^ 32)) =
      kExtentBasedTableMagicNumber % 2 ^ 32 := by
    rw [decodeFixed32_encodeFixed32]
    exact Nat.mod_mod_of_dvd _ dvd_rfl
  have hdrop4T : (encodeFixed32 (kExtentBasedTableMagicNumber % 2 ^ 32) ++
      encodeFixed32 (kExtentBasedTableMagicNumber / 2 ^ 32)).drop 4 =
      encodeFixed32 (kExtentBasedTableMagicNumber / 2 ^ 32) := by
    rw [show (4 : Nat) = (encodeFixed32 (kExtentBasedTableMagicNumber % 2 ^ 32)).length from rfl]
    exact List.drop_left _ _
  have hhi : decodeFixed32 (encodeFixed32 (kExtentBasedTableMagicNumber / 2 ^ 32)) =
      kExtentBasedTableMagicNumber / 2 ^ 32 := by
    rw [← List.append_nil (encodeFixed32 (kExtentBasedTableMagicNumber / 2 ^ 32)),
      decodeFixed32_encodeFixed32]
    exact Nat.mod_eq_of_lt hdiv
  have hdm : kExtentBasedTableMagicNumber / 2 ^ 32 * 2 ^ 32 +
      kExtentBasedTableMagicNumber % 2 ^ 32 = kExtentBasedTableMagicNumber := by
    rw [Nat.mul_comm]
    exact Nat.div_add_mod _ (2 ^ 32)
  have hdverx : decodeFixed32 (encodeFixed32 ver ++
      (encodeFixed32 (kExtentBasedTableMagicNumber % 2 ^ 32) ++
       encodeFixed32 (kExtentBasedTableMagicNumber / 2 ^ 32))) = ver := by
    rw [decodeFixed32_encodeFixed32]
    exact Nat.mod_eq_of_lt hver
  have hvs32 : decodeFixed32 (encodeFixed32 vs ++ (encodeFixed64 ne ++
      (chk :: ((mh.encodeTo ++ ih.encodeTo ++
          List.replicate (53 - (encodeFixed32 vs ++ encodeFixed64 ne ++
            chk :: (mh.encodeTo ++ ih.encodeTo)).length) 0) ++
        (encodeFixed32 ver ++
          (encodeFixed32 (kExtentBasedTableMagicNumber % 2 ^ 32) ++
           encodeFixed32 (kExtentBasedTableMagicNumber / 2 ^ 32))))))) = vs := by
    rw [decodeFixed32_encodeFixed32]
    exact Nat.mod_eq_of_lt hvs
  have hdne : decodeFixed64 (encodeFixed64 ne ++
      (chk :: ((mh.encodeTo ++ ih.encodeTo ++
          List.replicate (53 - (encodeFixed32 vs ++ encodeFixed64 ne ++
            chk :: (mh.encodeTo ++ ih.encodeTo)).length) 0) ++
        (encodeFixed32 ver ++
          (encodeFixed32 (kExtentBasedTableMagicNumber % 2 ^ 32) ++
           encodeFixed32 (kExtentBasedTableMagicNumber / 2 ^ 32)))))) = ne :=
    decodeFixed64_encodeFixed64 _ _ hne
  have hvar : getVarint32 (chk :: ((mh.encodeTo ++ ih.encodeTo ++
          List.replicate (53 - (encodeFixed32 vs ++ encodeFixed64 ne ++
            chk :: (mh.encodeTo ++ ih.encodeTo)).length) 0) ++
        (encodeFixed32 ver ++
          (encodeFixed32 (kExtentBasedTableMagicNumber % 2 ^ 32) ++
           encodeFixed32 (kExtentBasedTableMagicNumber / 2 ^ 32))))) =
      some (chk, (mh.encodeTo ++ ih.encodeTo ++
          List.replicate (53 - (encodeFixed32 vs ++ encodeFixed64 ne ++
            chk :: (mh.encodeTo ++ ih.encodeTo)).length) 0) ++
        (encodeFixed32 ver ++
          (encodeFixed32 (kExtentBasedTableMagicNumber % 2 ^ 32) ++
           encodeFixed32 (kExtentBasedTableMagicNumber / 2 ^ 32)))) :=
    getVarint32Loop_single hchk _
  have hbh : ∀ rest, BlockHandle.decodeFrom (mh.encodeTo ++ rest) = (Status.ok, mh, rest) :=
    fun r => blockHandle_decode_encode mh r h1 h2
  have hbh2 : ∀ rest, BlockHandle.decodeFrom (ih.encodeTo ++ rest) = (Status.ok, ih, rest) :=
    fun r => blockHandle_decode_encode ih r h3 h4
  rw [henc]
  simp only [Footer.decodeFrom, kMagicNumberLengthByte]
  rw [hlenE]
  rw [show (65 : Nat) - 8 = 57 from by norm_num]
  rw [hd57, hdrop4T, hhi, hlo, hdm, hnlx]
  rw [show (65 : Nat) - 12 = 53 from by norm_num]
  rw [hd53, hdverx]
  rw [show (65 : Nat) - kVersion3EncodedLength = 0 from by
    norm_num [kVersion3EncodedLength, kNewVersionsEncodedLength, kMaxEncodedLength]]
  rw [List.drop_zero]
  rw [hvs32, hd4E, hdne, hdrop12, hvar]
  simp [hbh, hbh2, kVersion3EncodedLength, kNewVersionsEncodedLength, kMaxEncodedLength,
    kBlockBasedTableMagicNumber, kExtentBasedTableMagicNumber]

/-- C1: for every supported footer layout (legacy, versioned, extent-based)
and every valid field combination, decoding the bytes produced by
`Footer::EncodeTo` yields a footer with the same version, checksum type,
metaindex handle, index handle (and, for the extent layout, the same
`valid_size` and `next_extent`), and the same table magic number up to the
auto-upgrade of a legacy magic to its canonical magic. -/
theorem C1_footer_roundtrip (f : Footer) (hf : ValidFooterFields f) :
    Footer.decodeFrom (Footer.encodeTo f) =
      FooterDecodeResult.ok
        { f with tableMagicNumber :=
            if IsLegacyFooterFormat f.tableMagicNumber then
              UpconvertLegacyFooterFormat f.tableMagicNumber
            else f.tableMagicNumber } := by
  obtain ⟨⟨h1, h2, h3, h4⟩, hcase⟩ := hf
  obtain ⟨ver, chk, m, mh, ih, vs, ne⟩ := f
  simp only at h1 h2 h3 h4 hcase
  rcases hcase with ⟨hm, hv, hc, hvs', hne'⟩ | ⟨hm, hv, hc, hvs', hne'⟩ | ⟨hm, hv, hc, hvs', hne'⟩
  · simp only [hm, if_pos rfl]
    exact footer_decode_encode_legacy ver chk m vs ne mh ih hm hv hc hvs' hne' h1 h2 h3 h4
  · subst hm
    have hnl : IsLegacyFooterFormat kBlockBasedTableMagicNumber = false := by decide
    simp only [hnl, Bool.false_eq_true, if_false]
    exact footer_decode_encode_versioned ver chk vs ne mh ih hv hc hvs' hne' h1 h2 h3 h4
  · subst hm
    have hnlx : IsLegacyFooterFormat kExtentBasedTableMagicNumber = false := by decide
    simp only [hnlx, Bool.false_eq_true, if_false]
    exact footer_decode_encode_extent ver chk vs ne mh ih hv hc hvs' hne' h1 h2 h3 h4

theorem C1_footer_roundtrip_witness :
    Footer.decodeFrom (Footer.encodeTo ⟨1, 2, kBlockBasedTableMagicNumber, ⟨3, 4⟩, ⟨5, 6⟩, 0, 0⟩) =
      FooterDecodeResult.ok ⟨1, 2, kBlockBasedTableMagicNumber, ⟨3, 4⟩, ⟨5, 6⟩, 0, 0⟩ := by
  have h := C1_footer_roundtrip ⟨1, 2, kBlockBasedTableMagicNumber, ⟨3, 4⟩, ⟨5, 6⟩, 0, 0⟩
    (by refine ⟨⟨by norm_num, by norm_num, by norm_num, by norm_num⟩, Or.inr (Or.inl ?_)⟩
        refine ⟨rfl, by norm_num, by norm_num, rfl, rfl⟩)
  have hnl : IsLegacyFooterFormat kBlockBasedTableMagicNumber = false := by decide
  rw [h, hnl]
  rfl

/-- C7 counterexample: on 48 zero bytes (whose trailing magic 0 is
unrecognized), `Footer::DecodeFrom` reaches `abort()` - it does not return a
`Corruption` status to the caller. -/
theorem C7_unknown_magic_counterexample :
    Footer.decodeFrom (List.replicate 48 0) = FooterDecodeResult.aborted := by rfl

/-- C7 (amended): an input whose trailing 8 bytes match no recognized magic
number makes `Footer::DecodeFrom` call `abort()`, terminating the process;
the `Corruption("unknown magic")` return after it is unreachable. -/
theorem C7_unknown_magic_aborts (input : List Nat)
    (_hlen : kVersion0EncodedLength ≤ input.length)
    (h1 : IsLegacyFooterFormat (footerMagic input) = false)
    (h2 : footerMagic input ≠ kBlockBasedTableMagicNumber)
    (h3 : footerMagic input ≠ kExtentBasedTableMagicNumber) :
    Footer.decodeFrom input = FooterDecodeResult.aborted := by
  simp only [footerMagic] at h1 h2 h3
  simp only [Footer.decodeFrom, h1, Bool.false_eq_true, if_false]
  rw [if_neg h2, if_neg h3]

theorem C7_unknown_magic_aborts_witness :
    Footer.decodeFrom (List.replicate 65 1) = FooterDecodeResult.aborted :=
  C7_unknown_magic_aborts (List.replicate 65 1) (by norm_num [kVersion0EncodedLength,
    kMaxEncodedLength]) (by decide) (by decide) (by decide)

/-- C8: decoding the output of `BlockHandle::EncodeTo` returns `OK` and
reproduces the original `(offset, size)` pair; decoding a byte sequence that
does not contain two complete varint64s - every byte carrying the
continuation (high) bit, whether before the first value or after a complete
first varint - returns `Corruption("bad block handle")` with the handle
reset to `(0, 0)`. -/
theorem C8_blockhandle_roundtrip :
    (∀ (h : BlockHandle) (rest : List Nat), h.offset < 2 ^ 64 → h.size < 2 ^ 64 →
       BlockHandle.decodeFrom (h.encodeTo ++ rest) = (Status.ok, h, rest)) ∧
    (∀ bs : List Nat, (∀ b ∈ bs, 128 ≤ b ∧ b < 256) →
       BlockHandle.decodeFrom bs = (Status.corruption "bad block handle", ⟨0, 0⟩, bs)) ∧
    (∀ (v : Nat) (bs : List Nat), v < 2 ^ 64 → (∀ b ∈ bs, 128 ≤ b ∧ b < 256) →
       BlockHandle.decodeFrom (encodeVarint64 v ++ bs) =
         (Status.corruption "bad block handle", ⟨0, 0⟩, bs)) := by
  refine ⟨fun h rest ho hs => blockHandle_decode_encode h rest ho hs, ?_, ?_⟩
  · intro bs hb
    have hnone : getVarint64 bs = none :=
      getVarint64Loop_highbits (fun b m => (hb b m).1) 0 0
    simp only [BlockHandle.decodeFrom, hnone]
  · intro v bs hv hb
    have hnone : getVarint64 bs = none :=
      getVarint64Loop_highbits (fun b m => (hb b m).1) 0 0
    simp only [BlockHandle.decodeFrom, getVarint64_encode v bs hv, hnone]

theorem C8_blockhandle_roundtrip_witness :
    BlockHandle.decodeFrom (BlockHandle.encodeTo ⟨300, 7⟩ ++ [9]) = (Status.ok, ⟨300, 7⟩, [9]) ∧
    BlockHandle.decodeFrom [128] = (Status.corruption "bad block handle", ⟨0, 0⟩, [128]) ∧
    BlockHandle.decodeFrom (encodeVarint64 300 ++ [129]) =
      (Status.corruption "bad block handle", ⟨0, 0⟩, [129]) :=
  ⟨C8_blockhandle_roundtrip.1 ⟨300, 7⟩ [9] (by norm_num) (by norm_num),
   C8_blockhandle_roundtrip.2.1 [128] (by decide),
   C8_blockhandle_roundtrip.2.2 300 [129] (by norm_num) (by decide)⟩

theorem PIBFinishLoop_run (env : TableEnv) (hs : Nat → BlockHandle) :
    ∀ (es : List PIBEntry) (acc : List (List Nat × List Nat)) (i : Nat), es ≠ [] →
    PIBFinishLoop env hs es.length i ⟨es, acc, true⟩ =
      List.replicate (es.length - 1) Status.incomplete ++ [Status.ok] := by
  intro es
  induction es with
  | nil => intro acc i h; exact absurd rfl h
  | cons e rest ih =>
    intro acc i _
    cases rest with
    | nil =>
      simp [PIBFinishLoop, PIBFinish]
    | cons e2 rest2 =>
      have hstep : PIBFinish env ⟨e :: e2 :: rest2, acc, true⟩ (hs i) =
          (Status.incomplete, env.serializeIndexBlock e2.subIndexEntries,
            ⟨e2 :: rest2, acc ++ [(e.key, (hs i).encodeTo)], true⟩) := by
        simp [PIBFinish]
      show PIBFinishLoop env hs ((e2 :: rest2).length + 1) i ⟨e :: e2 :: rest2, acc, true⟩ = _
      rw [PIBFinishLoop, hstep]
      simp only [if_pos rfl]
      rw [ih (acc ++ [(e.key, (hs i).encodeTo)]) (i + 1) (by simp)]
      simp [List.replicate_succ]

/-- C2: for a partitioned index with `N` pending partitions, the first
`Finish` call (the single-argument overload, before the loop) returns
`Incomplete`, and the `Finish` loop - each call finalizing one pending
partition and feeding back the handle of the block just written - then
returns exactly `N - 1` `Incomplete` statuses followed by exactly one
`OK`. -/
theorem C2_partitioned_finish_protocol (env : TableEnv) (hs : Nat → BlockHandle)
    (entries : List PIBEntry) (acc : List (List Nat × List Nat))
    (hne : entries ≠ []) :
    (PIBFinish env ⟨entries, acc, false⟩ (hs 0)).1 = Status.incomplete ∧
    PIBFinishLoop env hs entries.length 1
        (PIBFinish env ⟨entries, acc, false⟩ (hs 0)).2.2 =
      List.replicate (entries.length - 1) Status.incomplete ++ [Status.ok] := by
  obtain ⟨e, rest, rfl⟩ : ∃ e rest, entries = e :: rest := by
    cases entries with
    | nil => exact absurd rfl hne
    | cons e rest => exact ⟨e, rest, rfl⟩
  have hfirst : PIBFinish env ⟨e :: rest, acc, false⟩ (hs 0) =
      (Status.incomplete, env.serializeIndexBlock e.subIndexEntries,
        ⟨e :: rest, acc, true⟩) := by
    simp [PIBFinish]
  refine ⟨by rw [hfirst], ?_⟩
  rw [hfirst]
  exact PIBFinishLoop_run env hs (e :: rest) acc 1 (by simp)

theorem C2_partitioned_finish_protocol_witness :
    (PIBFinish ⟨fun _ => 0, fun v => v, fun _ => 0, fun _ _ => none, fun _ _ => none,
        fun _ => [], fun _ => [], fun _ => [], fun _ _ _ _ _ _ => [], fun _ => [],
        fun _ _ _ => false, fun _ => KeyKind.valueKey, fun k _ => k, fun _ => 0, 0⟩
      ⟨[⟨[1], []⟩, ⟨[2], []⟩], [], false⟩ ⟨0, 0⟩).1 = Status.incomplete ∧
    PIBFinishLoop ⟨fun _ => 0, fun v => v, fun _ => 0, fun _ _ => none, fun _ _ => none,
        fun _ => [], fun _ => [], fun _ => [], fun _ _ _ _ _ _ => [], fun _ => [],
        fun _ _ _ => false, fun _ => KeyKind.valueKey, fun k _ => k, fun _ => 0, 0⟩
      (fun _ => ⟨0, 0⟩) 2 1
      (PIBFinish ⟨fun _ => 0, fun v => v, fun _ => 0, fun _ _ => none, fun _ _ => none,
        fun _ => [], fun _ => [], fun _ => [], fun _ _ _ _ _ _ => [], fun _ => [],
        fun _ _ _ => false, fun _ => KeyKind.valueKey, fun k _ => k, fun _ => 0, 0⟩
      ⟨[⟨[1], []⟩, ⟨[2], []⟩], [], false⟩ ⟨0, 0⟩).2.2 =
      List.replicate 1 Status.incomplete ++ [Status.ok] :=
  C2_partitioned_finish_protocol _ (fun _ => ⟨0, 0⟩) [⟨[1], []⟩, ⟨[2], []⟩] [] (by simp)

/-- C3: `ReadBlock` returns `Corruption("truncated block read")` when the
read delivers fewer than `handle.size + kBlockTrailerSize` bytes;
with `verify_checksums` it returns `Corruption("block checksum mismatch")`
when the recomputed checksum over the block bytes plus type byte differs
from the stored (for CRC32c: unmasked) checksum, and
`Corruption("unknown checksum type")` when the footer records an
unrecognized checksum type; with `verify_checksums = false` no verification
happens and the delivered (possibly corrupted, never empty) bytes come back
with `OK`. -/
theorem C3_readblock_corruption (crcV : List Nat → Nat) (unmask : Nat → Nat)
    (xxh : List Nat → Nat) (file : List Nat) (ct : Nat) (handle : BlockHandle) :
    ((readDelivered file handle).length ≠ handle.size + kBlockTrailerSize →
      ∀ verify, ReadBlock crcV unmask xxh file ct verify handle =
        (Status.corruption "truncated block read", readDelivered file handle)) ∧
    ((readDelivered file handle).length = handle.size + kBlockTrailerSize →
      ct = kCRC32c →
      crcV ((readDelivered file handle).take (handle.size + 1)) ≠
        unmask (decodeFixed32 ((readDelivered file handle).drop (handle.size + 1))) →
      ReadBlock crcV unmask xxh file ct true handle =
        (Status.corruption "block checksum mismatch", readDelivered file handle)) ∧
    ((readDelivered file handle).length = handle.size + kBlockTrailerSize →
      ct = kxxHash →
      xxh ((readDelivered file handle).take (handle.size + 1)) ≠
        decodeFixed32 ((readDelivered file handle).drop (handle.size + 1)) →
      ReadBlock crcV unmask xxh file ct true handle =
        (Status.corruption "block checksum mismatch", readDelivered file handle)) ∧
    ((readDelivered file handle).length = handle.size + kBlockTrailerSize →
      ct ≠ kCRC32c → ct ≠ kxxHash →
      ReadBlock crcV unmask xxh file ct true handle =
        (Status.corruption "unknown checksum type", readDelivered file handle)) ∧
    ((readDelivered file handle).length = handle.size + kBlockTrailerSize →
      ReadBlock crcV unmask xxh file ct false handle =
        (Status.ok, readDelivered file handle)) := by
  refine ⟨?_, ?_, ?_, ?_, ?_⟩
  · intro hlen verify
    simp [ReadBlock, hlen]
  · intro hlen hct hmm
    subst hct
    simp [ReadBlock, hlen, hmm]
  · intro hlen hct hmm
    subst hct
    have hck : ¬ (kxxHash = kCRC32c) := by decide
    simp [ReadBlock, hlen, hmm, hck]
  · intro hlen h1 h2
    simp [ReadBlock, hlen, h1, h2]
  · intro hlen
    simp [ReadBlock, hlen]

theorem C3_readblock_corruption_witness :
    ReadBlock (fun _ => 0) (fun _ => 1) (fun _ => 5) [7, 7, 7, 7, 7, 7] kCRC32c true ⟨0, 5⟩ =
      (Status.corruption "truncated block read", [7, 7, 7, 7, 7, 7]) ∧
    ReadBlock (fun _ => 0) (fun _ => 1) (fun _ => 5) [7, 7, 7, 7, 7, 7] kCRC32c true ⟨0, 1⟩ =
      (Status.corruption "block checksum mismatch", [7, 7, 7, 7, 7, 7]) ∧
    ReadBlock (fun _ => 0) (fun _ => 1) (fun _ => 5) [7, 7, 7, 7, 7, 7] kxxHash true ⟨0, 1⟩ =
      (Status.corruption "block checksum mismatch", [7, 7, 7, 7, 7, 7]) ∧
    ReadBlock (fun _ => 0) (fun _ => 1) (fun _ => 5) [7, 7, 7, 7, 7, 7] 9 true ⟨0, 1⟩ =
      (Status.corruption "unknown checksum type", [7, 7, 7, 7, 7, 7]) ∧
    ReadBlock (fun _ => 0) (fun _ => 1) (fun _ => 5) [7, 7, 7, 7, 7, 7] 9 false ⟨0, 1⟩ =
      (Status.ok, [7, 7, 7, 7, 7, 7]) :=
  ⟨(C3_readblock_corruption _ _ _ _ _ _).1 (by decide) true,
   (C3_readblock_corruption _ _ _ _ _ _).2.1 (by decide) rfl (by decide),
   (C3_readblock_corruption _ _ _ _ _ _).2.2.1 (by decide) rfl (by decide),
   (C3_readblock_corruption _ _ _ _ _ _).2.2.2.1 (by decide) (by decide) (by decide),
   (C3_readblock_corruption _ _ _ _ _ _).2.2.2.2 (by decide)⟩

/-- C4: for a selected compression type that has a codec, `CompressBlock`
returns the raw bytes with `*type` set to `kNoCompression` exactly when the
codec fails or the compressed output is not at least 12.5% smaller than the
raw input (`compressed_size >= raw_size - raw_size / 8`); otherwise it
returns the compressed bytes and leaves `*type` at the selected type. -/
theorem C4_compress_block_fallback (codec : Nat → List Nat → Option (List Nat))
    (raw : List Nat) (t : Nat) (ht : t ∈ SupportedCompressionTypes) :
    (CompressBlock codec raw t = (raw, kNoCompression) ↔
      codec t raw = none ∨
        ∃ out, codec t raw = some out ∧ raw.length - raw.length / 8 ≤ out.length) ∧
    (∀ out, codec t raw = some out → out.length < raw.length - raw.length / 8 →
      CompressBlock codec raw t = (out, t)) := by
  have ht0 : ¬ (t = kNoCompression) := by
    intro h
    rw [h] at ht
    revert ht
    decide
  constructor
  · unfold CompressBlock
    rw [if_neg ht0, if_pos ht]
    cases hc : codec t raw with
    | none => simp
    | some out =>
      by_cases hg : GoodCompressionRatio out.length raw.length
      · simp only [hg, if_true]
        constructor
        · intro he
          exact absurd (congrArg Prod.snd he) ht0
        · rintro (h | ⟨out', ho', hbad⟩)
          · cases h
          · cases ho'
            unfold GoodCompressionRatio at hg
            simp at hg
            omega
      · simp only [if_neg hg]
        constructor
        · intro _
          refine Or.inr ⟨out, rfl, ?_⟩
          unfold GoodCompressionRatio at hg
          simp at hg
          omega
        · intro _
          trivial
  · intro out hc hlt
    have hg : GoodCompressionRatio out.length raw.length = true := by
      unfold GoodCompressionRatio
      simp [hlt]
    unfold CompressBlock
    rw [if_neg ht0, if_pos ht, hc]
    simp [hg]

theorem C4_compress_block_fallback_witness :
    CompressBlock (fun _ _ => some [1]) (List.replicate 10 0) kSnappyCompression =
      ([1], kSnappyCompression) ∧
    CompressBlock (fun _ _ => none) (List.replicate 10 0) kZlibCompression =
      (List.replicate 10 0, kNoCompression) :=
  ⟨(C4_compress_block_fallback (fun _ _ => some [1]) (List.replicate 10 0)
      kSnappyCompression (by decide)).2 [1] rfl (by decide),
   (C4_compress_block_fallback (fun _ _ => none) (List.replicate 10 0)
      kZlibCompression (by decide)).1.mpr (Or.inl rfl)⟩

open BlockBasedTableBuilder in
/-- C5 counterexample: with `verify_compression` enabled and a codec whose
decompressed output does not match the raw block, `WriteBlock` finishes
with the builder status `OK` (the `WriteRawBlock` it calls overwrites the
just-latched `Corruption` with the successful append status), so the
failure is not surfaced as an error status as the claim states. -/
theorem C5_verify_compression_counterexample :
    (WriteBlock mismatchEnv ⟨kCRC32c, 1, true⟩ kSnappyCompression sampleRep
        (List.replicate 10 0)).1.status = Status.ok ∧
    mismatchEnv.uncompress
        (CompressBlock mismatchEnv.codec (List.replicate 10 0) kSnappyCompression).2
        (CompressBlock mismatchEnv.codec (List.replicate 10 0) kSnappyCompression).1 =
      some [9] ∧
    (CompressBlock mismatchEnv.codec (List.replicate 10 0) kSnappyCompression).2 ≠
      kNoCompression ∧
    [9] ≠ List.replicate 10 0 := by
  refine ⟨?_, by decide, by decide, by decide⟩
  decide

open BlockBasedTableBuilder in
/-- C5 (amended): when `verify_compression` is enabled and the block was
compressed, a decompression mismatch or error latches a `Corruption` status
and forces the block to be written uncompressed from the raw bytes - but the
`WriteRawBlock` call then overwrites the builder status with the
(successful) file-append status, so the `Corruption` is lost and the
fallback is effectively silent. -/
theorem C5_verify_compression_overwritten :
    (∀ (env : TableEnv) (opts : BlockBasedTableOptions) (ctype : Nat)
        (r : BuilderRep) (raw u : List Nat),
      raw.length < env.compressionSizeLimit →
      opts.verifyCompression = true →
      (CompressBlock env.codec raw ctype).2 ≠ kNoCompression →
      env.uncompress (CompressBlock env.codec raw ctype).2
        (CompressBlock env.codec raw ctype).1 = some u →
      u ≠ raw →
      WriteBlock env opts ctype r raw =
        WriteRawBlock env opts
          { r with status := Status.corruption "Decompressed block did not match raw block" }
          raw kNoCompression ∧
      (WriteBlock env opts ctype r raw).1.status = Status.ok) ∧
    (∀ (env : TableEnv) (opts : BlockBasedTableOptions) (ctype : Nat)
        (r : BuilderRep) (raw : List Nat),
      raw.length < env.compressionSizeLimit →
      opts.verifyCompression = true →
      (CompressBlock env.codec raw ctype).2 ≠ kNoCompression →
      env.uncompress (CompressBlock env.codec raw ctype).2
        (CompressBlock env.codec raw ctype).1 = none →
      WriteBlock env opts ctype r raw =
        WriteRawBlock env opts
          { r with status := Status.corruption "Could not decompress" }
          raw kNoCompression ∧
      (WriteBlock env opts ctype r raw).1.status = Status.ok) := by
  constructor
  · intro env opts ctype r raw u hlim hvc ht hu hne
    have hmain : WriteBlock env opts ctype r raw =
        WriteRawBlock env opts
          { r with status := Status.corruption "Decompressed block did not match raw block" }
          raw kNoCompression := by
      unfold WriteBlock
      rw [if_pos hlim]
      simp only [hu, if_pos (And.intro ht hvc), if_neg hne]
      rw [if_pos trivial]
    exact ⟨hmain, by rw [hmain, WriteRawBlock]⟩
  · intro env opts ctype r raw hlim hvc ht hu
    have hmain : WriteBlock env opts ctype r raw =
        WriteRawBlock env opts
          { r with status := Status.corruption "Could not decompress" }
          raw kNoCompression := by
      unfold WriteBlock
      rw [if_pos hlim]
      simp only [hu, if_pos (And.intro ht hvc)]
      rw [if_pos trivial]
    exact ⟨hmain, by rw [hmain, WriteRawBlock]⟩

open BlockBasedTableBuilder in
theorem C5_verify_compression_overwritten_witness :
    WriteBlock mismatchEnv ⟨kCRC32c, 1, true⟩ kSnappyCompression sampleRep
        (List.replicate 10 0) =
      WriteRawBlock mismatchEnv ⟨kCRC32c, 1, true⟩
        { sampleRep with
          status := Status.corruption "Decompressed block did not match raw block" }
        (List.replicate 10 0) kNoCompression ∧
    (WriteBlock mismatchEnv ⟨kCRC32c, 1, true⟩ kSnappyCompression sampleRep
        (List.replicate 10 0)).1.status = Status.ok :=
  C5_verify_compression_overwritten.1 mismatchEnv ⟨kCRC32c, 1, true⟩ kSnappyCompression
    sampleRep (List.replicate 10 0) [9] (by decide) rfl (by decide) (by decide) (by decide)

open BlockBasedTableBuilder in
/-- C6: `WriteRawBlock` sets the handle to the current file offset and the
contents size, appends the contents followed by the 5-byte trailer (the
type byte and the 4-byte trailer checksum computed over the contents
concatenated with the type byte, by the configured checksum algorithm), and
advances the file offset by `contents.size() + kBlockTrailerSize`. -/
theorem C6_write_raw_block (env : TableEnv) (opts : BlockBasedTableOptions)
    (r : BuilderRep) (contents : List Nat) (type : Nat) :
    (WriteRawBlock env opts r contents type).2 =
      BlockHandle.mk r.offset contents.length ∧
    (WriteRawBlock env opts r contents type).1.file =
      r.file ++ contents ++
        (type :: encodeFixed32 (trailerChecksum env opts.checksum contents type)) ∧
    (type :: encodeFixed32 (trailerChecksum env opts.checksum contents type)).length =
      kBlockTrailerSize ∧
    (WriteRawBlock env opts r contents type).1.offset =
      r.offset + contents.length + kBlockTrailerSize ∧
    trailerChecksum env opts.checksum contents type =
      (if opts.checksum = kxxHash then env.xxh32 (contents ++ [type]) % 2 ^ 32
       else env.crc32cMask (env.crc32cValue (contents ++ [type])) % 2 ^ 32) :=
  ⟨rfl, rfl, rfl, rfl, rfl⟩

/-- C9: once a non-OK status is latched into the builder, `Add`, `Flush`
and `Finish` append nothing to the file and leave the builder state (data
block contents, file offset, property counters, overall status) unchanged,
returning the latched status; `Finish` additionally marks the builder
closed and clears `first_key`, the only unguarded writes on that path. -/
theorem C9_latched_status_noops (env : TableEnv) (opts : BlockBasedTableOptions)
    (compressionType : Nat) (r : BuilderRep) (key value : List Nat)
    (hbad : r.status ≠ Status.ok) (_hopen : r.closed = false) :
    BlockBasedTableBuilder.Add env opts compressionType r key value = (r.status, r) ∧
    BlockBasedTableBuilder.Flush env opts compressionType r = r ∧
    (BlockBasedTableBuilder.Finish env opts compressionType r).1 = r.status ∧
    (BlockBasedTableBuilder.Finish env opts compressionType r).2 = { r with closed := true, firstKey := [] } := by
  refine ⟨?_, ?_, ?_, ?_⟩
  · simp [BlockBasedTableBuilder.Add, hbad]
  · simp [BlockBasedTableBuilder.Flush, hbad]
  · simp [BlockBasedTableBuilder.Finish, BlockBasedTableBuilder.Flush, hbad]
  · simp [BlockBasedTableBuilder.Finish, BlockBasedTableBuilder.Flush, hbad]

theorem C9_latched_status_noops_witness :
    BlockBasedTableBuilder.Add sampleEnv ⟨kCRC32c, 1, false⟩ kNoCompression
        { sampleRep with status := Status.corruption "io" } [1] [2] =
      (Status.corruption "io", { sampleRep with status := Status.corruption "io" }) ∧
    BlockBasedTableBuilder.Flush sampleEnv ⟨kCRC32c, 1, false⟩ kNoCompression
        { sampleRep with status := Status.corruption "io" } =
      { sampleRep with status := Status.corruption "io" } ∧
    (BlockBasedTableBuilder.Finish sampleEnv ⟨kCRC32c, 1, false⟩ kNoCompression
        { sampleRep with status := Status.corruption "io" }).1 =
      Status.corruption "io" ∧
    (BlockBasedTableBuilder.Finish sampleEnv ⟨kCRC32c, 1, false⟩ kNoCompression
        { sampleRep with status := Status.corruption "io" }).2 =
      { sampleRep with status := Status.corruption "io", closed := true, firstKey := [] } := by
  have h := C9_latched_status_noops sampleEnv ⟨kCRC32c, 1, false⟩ kNoCompression
    { sampleRep with status := Status.corruption "io" } [1] [2] (by decide) rfl
  exact ⟨h.1, h.2.1, h.2.2.1, h.2.2.2⟩

open BlockBasedTableBuilder in
/-- C10: a builder constructed with `format_version == 0` and a checksum
other than CRC32c silently substitutes `format_version 1`; consequently the
footer built by `Finish` carries the legacy magic number exactly when the
sanitized `format_version` is 0, and every legacy-magic footer the builder
produces has checksum `kCRC32c`, so the legacy-layout assertion
`checksum_ == kCRC32c` in `Footer::EncodeTo` cannot fail for
builder-produced footers. -/
theorem C10_format_version_sanitization (o : BlockBasedTableOptions)
    (mh ih : BlockHandle) :
    (o.formatVersion = 0 → o.checksum ≠ kCRC32c →
      sanitizedTableOptions o = { o with formatVersion := 1 }) ∧
    ((sanitizedTableOptions o).formatVersion = 0 →
      (sanitizedTableOptions o).checksum = kCRC32c) ∧
    (IsLegacyFooterFormat
        (finishFooter (sanitizedTableOptions o) mh ih).tableMagicNumber = true →
      (finishFooter (sanitizedTableOptions o) mh ih).checksum = kCRC32c ∧
      (finishFooter (sanitizedTableOptions o) mh ih).tableMagicNumber =
        kLegacyBlockBasedTableMagicNumber) := by
  by_cases hc : o.formatVersion = 0 ∧ o.checksum ≠ kCRC32c
  · refine ⟨fun _ _ => by simp [sanitizedTableOptions, hc], ?_, ?_⟩
    · simp [sanitizedTableOptions, hc]
    · have hfv : (sanitizedTableOptions o).formatVersion = 1 := by
        simp [sanitizedTableOptions, hc]
      intro hm
      exfalso
      have : (finishFooter (sanitizedTableOptions o) mh ih).tableMagicNumber =
          kBlockBasedTableMagicNumber := by
        simp [finishFooter, hfv]
      rw [this] at hm
      exact absurd hm (by decide)
  · have hs : sanitizedTableOptions o = o := by
      simp [sanitizedTableOptions, hc]
    refine ⟨fun h1 h2 => absurd ⟨h1, h2⟩ hc, ?_, ?_⟩
    · rw [hs]
      intro hfv
      by_contra hne
      exact hc ⟨hfv, hne⟩
    · rw [hs]
      intro hm
      by_cases hfv : o.formatVersion = 0
      · have hcrc : o.checksum = kCRC32c := by
          by_contra hne
          exact hc ⟨hfv, hne⟩
        exact ⟨hcrc, by simp [finishFooter, hfv]⟩
      · exfalso
        have : (finishFooter o mh ih).tableMagicNumber = kBlockBasedTableMagicNumber := by
          simp [finishFooter, hfv]
        rw [this] at hm
        exact absurd hm (by decide)

open BlockBasedTableBuilder in
theorem C10_format_version_sanitization_witness :
    sanitizedTableOptions ⟨kxxHash, 0, false⟩ =
      BlockBasedTableOptions.mk kxxHash 1 false ∧
    IsLegacyFooterFormat
        (finishFooter (sanitizedTableOptions ⟨kCRC32c, 0, false⟩) ⟨0, 0⟩ ⟨0, 0⟩).tableMagicNumber =
      true ∧
    (finishFooter (sanitizedTableOptions ⟨kCRC32c, 0, false⟩) ⟨0, 0⟩ ⟨0, 0⟩).checksum =
      kCRC32c :=
  ⟨(C10_format_version_sanitization ⟨kxxHash, 0, false⟩ ⟨0, 0⟩ ⟨0, 0⟩).1 rfl (by decide),
   by decide,
   ((C10_format_version_sanitization ⟨kCRC32c, 0, false⟩ ⟨0, 0⟩ ⟨0, 0⟩).2.2 (by decide)).1⟩

